import Mathlib

/-!
Verification development for the bigdata_agent query-compilation pipeline.

The Python source is shallowly embedded: dataclasses become structures,
Python dicts with a fixed key set become structures or association lists,
`Optional` fields become `Option`, Python `float` arithmetic on the small
decimal literals used by the cost model is modelled exactly over `ℚ`,
machine-independent collaborators (the system clock, `uuid`) are passed in
as parameters, and fallible code returns `Except`.
-/

/-- Characters of a string as a list (Python iterates strings char-wise). -/
def strChars (s : String) : List Char := s.data

/-- Number of occurrences of a character in a string (Python `s.count(c)`
for a single-character argument). -/
def countChar (s : String) (c : Char) : Nat := s.data.countP (fun x => x == c)

/-- Substring containment on char lists (Python `pat in s`). -/
def containsSub (pat : List Char) : List Char → Bool
  | [] => pat.isEmpty
  | c :: rest => pat.isPrefixOf (c :: rest) || containsSub pat rest

/-- Python `pat in s` for strings. -/
def strIn (pat s : String) : Bool := containsSub pat.data s.data

/-- Python `s.startswith(pre)`. -/
def pyStartsWith (s pre : String) : Bool := pre.data.isPrefixOf s.data

/-- Python `str.upper`, modelled char-wise (all characters appearing in the
embedded code are ASCII or caseless CJK, where this agrees with Python). -/
def pyUpper (s : String) : String := String.mk (s.data.map Char.toUpper)

/-- Python `str.lower`, modelled char-wise. -/
def pyLower (s : String) : String := String.mk (s.data.map Char.toLower)

/-- Drop leading whitespace from a char list. -/
def dropLeadingWs (l : List Char) : List Char := l.dropWhile Char.isWhitespace

/-- Drop trailing whitespace from a char list. -/
def dropTrailingWs (l : List Char) : List Char :=
  ((l.reverse.dropWhile Char.isWhitespace)).reverse

/-- Python `s.strip()`: remove leading and trailing whitespace. -/
def pyStrip (s : String) : String := String.mk (dropTrailingWs (dropLeadingWs s.data))

/-- Python `sep.join(parts)`. -/
def pyJoin (sep : String) : List String → String
  | [] => ""
  | [x] => x
  | x :: xs => x ++ sep ++ pyJoin sep xs

/-- Python `s.split(sep)` for a non-empty separator (used only through
`[-1]` indexing, so `String.splitOn`, which has the same semantics on a
non-empty separator, is used directly). -/
def pySplit (sep s : String) : List String := s.splitOn sep

/-- Decimal rendering of a natural number, as Python's `str`. -/
def numStr (n : Nat) : String :=
  if n < 10 then String.mk [Char.ofNat (48 + n)]
  else numStr (n / 10) ++ String.mk [Char.ofNat (48 + n % 10)]
  termination_by n
  decreasing_by exact Nat.div_lt_self (by omega) (by omega)

/-- Python `str` of an `int`. -/
def intStr (i : Int) : String :=
  if i < 0 then "-" ++ numStr i.natAbs else numStr i.natAbs

/-- Left-pad a string with zeros to width `k` (for `strftime` fields). -/
def padZeros (k : Nat) (s : String) : String :=
  if s.length < k then String.mk (List.replicate (k - s.length) '0') ++ s else s

/-- A calendar date as returned by the `datetime` collaborator. -/
structure PyDate where
  year : Nat
  month : Nat
  day : Nat

/-- `strftime('%Y-%m-%d')` on a date. -/
def strftimeYmd (d : PyDate) : String :=
  padZeros 4 (numStr d.year) ++ "-" ++ padZeros 2 (numStr d.month) ++ "-" ++
    padZeros 2 (numStr d.day)

/-- Truthiness of an optional string (Python: `None` and `""` are falsy). -/
def optStrTruthy : Option String → Bool
  | none => false
  | some s => !s.isEmpty

/-- Truthiness of an optional integer (Python: `None` and `0` are falsy). -/
def optIntTruthy : Option Int → Bool
  | none => false
  | some n => n != 0

/-- Association-list lookup, modelling Python `dict.get` on the literal
dictionaries of the source (string keys, insertion order preserved). -/
def alistGet {α : Type} (l : List (String × α)) (k : String) : Option α :=
  (l.find? (fun p => p.1 == k)).map (·.2)

/-! ## nlp/intent_recognizer.py -/

/-- Query intent categories (`QueryIntent` enum). -/
inductive QueryIntent where
  | STATISTICS | ANALYSIS | TREND | COMPARISON | FILTER
  | AGGREGATION | RANKING | DISTRIBUTION | CORRELATION | UNKNOWN
  deriving DecidableEq, Repr

/-- The `.value` string of each enum member. -/
def QueryIntent.value : QueryIntent → String
  | .STATISTICS => "statistics"
  | .ANALYSIS => "analysis"
  | .TREND => "trend"
  | .COMPARISON => "comparison"
  | .FILTER => "filter"
  | .AGGREGATION => "aggregation"
  | .RANKING => "ranking"
  | .DISTRIBUTION => "distribution"
  | .CORRELATION => "correlation"
  | .UNKNOWN => "unknown"

/-- The parameters dictionary produced by `_extract_parameters` (each key is
optional: absent keys are `none`). -/
structure IntentParameters where
  time_range : Option String := none
  aggregation : Option String := none
  limit : Option Nat := none
  entity : Option String := none
  deriving DecidableEq, Repr

/-- `IntentResult` dataclass. -/
structure IntentResult where
  intent : QueryIntent
  confidence : ℚ
  parameters : IntentParameters
  raw_query : String
  deriving DecidableEq, Repr

/-- `IntentRecognizer.intent_keywords`, in its insertion order. -/
def intent_keywords : List (QueryIntent × List String) :=
  [(.STATISTICS, ["统计", "统计数", "数量", "总数", "总计", "count", "sum", "统计数据"]),
   (.ANALYSIS, ["分析", "分析数据", "数据分析", "深入分析", "详细分析"]),
   (.TREND, ["趋势", "变化趋势", "发展趋势", "时间趋势", "历史趋势"]),
   (.COMPARISON, ["对比", "比较", "对比分析", "差异", "差距", "对比不同"]),
   (.FILTER, ["筛选", "过滤", "查找", "查询", "搜索", "where", "筛选出"]),
   (.AGGREGATION, ["聚合", "汇总", "分组汇总", "group by", "分组统计"]),
   (.RANKING, ["排名", "排序", "top", "前几名", "排名靠前", "最", "第"]),
   (.DISTRIBUTION, ["分布", "分布情况", "分布分析", "占比", "比例"]),
   (.CORRELATION, ["相关性", "相关", "关联", "关系", "相关分析"])]

/-- `IntentRecognizer.time_keywords`. -/
def time_keywords : List String :=
  ["今天", "昨天", "最近", "过去", "未来", "本周", "上周", "本月", "上月",
   "今年", "去年", "最近7天", "最近30天", "过去一周", "过去一个月"]

/-- `IntentRecognizer.aggregation_keywords`. -/
def aggregation_keywords : List String :=
  ["求和", "平均", "最大", "最小", "计数", "总计", "均值", "平均值"]

/-- Score of one intent category on a query: the number of its keywords
occurring (case-insensitively) in the text. -/
def intentScore (query_lower : String) (keywords : List String) : Nat :=
  keywords.countP (fun k => strIn (pyLower k) query_lower)

/-- Python `max(iterable, key=...)` over (key, score) pairs: the first pair
attaining the maximal score, in iteration order. -/
def pyMaxBySnd (l : List (QueryIntent × Nat)) : QueryIntent × Nat :=
  match l with
  | [] => (QueryIntent.UNKNOWN, 0)
  | x :: xs => xs.foldl (fun q p => if p.2 > q.2 then p else q) x

/-- First maximal ASCII-digit run of the text, as a number
(`re.findall(r'\d+', query)` followed by `int(numbers[0])`). -/
def firstNumber (l : List Char) : Option Nat :=
  match l with
  | [] => none
  | c :: rest =>
    if c.isDigit then
      some ((c :: rest.takeWhile Char.isDigit).foldl
        (fun acc d => acc * 10 + (d.toNat - 48)) 0)
    else firstNumber rest

/-- `IntentRecognizer._extract_parameters`. -/
def extract_parameters (query : String) : IntentParameters :=
  { time_range := time_keywords.find? (fun k => strIn k query)
    aggregation := aggregation_keywords.find? (fun k => strIn k query)
    limit := firstNumber query.data
    entity :=
      if strIn "用户" query then some "user"
      else if strIn "订单" query then some "order"
      else if strIn "商品" query then some "product"
      else none }

/-- `IntentRecognizer.recognize_intent`. -/
def recognize_intent (query : String) : IntentResult :=
  let query_lower := pyLower query
  let intent_scores := intent_keywords.map (fun p => (p.1, intentScore query_lower p.2))
  let best := pyMaxBySnd intent_scores
  let best_kws := ((intent_keywords.find? (fun p => p.1 == best.1)).map (·.2)).getD []
  let confidence : ℚ := (best.2 : ℚ) / (max 1 best_kws.length : ℚ)
  let adjusted :=
    if confidence = 0 then (QueryIntent.STATISTICS, (0.5 : ℚ)) else (best.1, confidence)
  { intent := adjusted.1
    confidence := min adjusted.2 1.0
    parameters := extract_parameters query
    raw_query := query }

/-! ## nlp/query_analyzer.py — the IR dataclasses -/

/-- A Python value that can appear as a `QueryCondition.value` (`Any` in the
source); the numeric, string, boolean, `None`, list and tuple values that the
condition renderer distinguishes. -/
inductive PyVal where
  | VStr (s : String)
  | VInt (n : Int)
  | VBool (b : Bool)
  | VNone
  | VList (vs : List PyVal)
  | VTuple (vs : List PyVal)

/-- Backslash-escaping inside Python `repr` of a string; the quote-choice
optimisation and non-printable escapes are omitted (no escape sequence
introduces or removes the characters the SQL validator counts). -/
def reprEscape (l : List Char) : List Char :=
  match l with
  | [] => []
  | c :: rest =>
    if c = '\\' ∨ c = '\'' then '\\' :: c :: reprEscape rest
    else c :: reprEscape rest

mutual

/-- Python `repr` on the embedded value domain. -/
def pyRepr : PyVal → String
  | .VStr s => "'" ++ String.mk (reprEscape s.data) ++ "'"
  | .VInt n => intStr n
  | .VBool b => if b then "True" else "False"
  | .VNone => "None"
  | .VList vs => "[" ++ pyJoin ", " (pyReprList vs) ++ "]"
  | .VTuple [] => "()"
  | .VTuple [v] => "(" ++ pyRepr v ++ ",)"
  | .VTuple (v1 :: v2 :: rest) =>
    "(" ++ pyJoin ", " (pyReprList (v1 :: v2 :: rest)) ++ ")"

/-- `repr` mapped over a list of values. -/
def pyReprList : List PyVal → List String
  | [] => []
  | v :: vs => pyRepr v :: pyReprList vs

end

/-- Python `str` on the embedded value domain (containers print their
elements with `repr`). -/
def pyValStr : PyVal → String
  | .VStr s => s
  | v => pyRepr v

/-- `DataSource` dataclass. -/
structure DataSource where
  name : String
  type : String
  table : String
  database : Option String := none
  path : Option String := none
  deriving DecidableEq, Repr

/-- `QueryCondition` dataclass. -/
structure QueryCondition where
  field : String
  operator : String
  value : PyVal
  logical_op : String := "AND"

/-- `AggregationConfig` dataclass; `aggregations` is a field → function
dictionary, kept in insertion order. -/
structure AggregationConfig where
  group_by : List String
  aggregations : List (String × String)
  deriving DecidableEq, Repr

/-- `TimeRange` dataclass. -/
structure TimeRange where
  start_date : Option String := none
  end_date : Option String := none
  relative_days : Option Int := none
  deriving DecidableEq, Repr

/-- `OutputConfig` dataclass. -/
structure OutputConfig where
  format : String := "json"
  limit : Option Int := none
  sort_by : Option String := none
  sort_order : String := "desc"
  deriving DecidableEq, Repr

/-- `AnalyzedQuery` dataclass: the full IR. -/
structure AnalyzedQuery where
  original_query : String
  intent_result : IntentResult
  data_source : DataSource
  conditions : List QueryCondition
  aggregations : Option AggregationConfig := none
  time_range : Option TimeRange := none
  output_config : OutputConfig := {}
  description : String := ""
  confidence_score : ℚ := 0.0

/-! ## task/sql_generator.py

The `datetime` collaborator is abstracted as a parameter
`calMinus : Int → PyDate`, where `calMinus k` is the calendar date of
`datetime.now() - timedelta(days=k)` (so `calMinus 0` is today). -/

/-- `SQLGenerator.supported_dialects`. -/
def supported_dialects : List String := ["hive", "spark", "clickhouse", "presto"]

/-- The `operator_map` of `_condition_to_sql`. -/
def operator_map : List (String × String) :=
  [("=", "="), (">", ">"), ("<", "<"), (">=", ">="), ("<=", "<="),
   ("like", "LIKE"), ("in", "IN"), ("between", "BETWEEN")]

/-- `SQLGenerator._condition_to_sql`. -/
def condition_to_sql (c : QueryCondition) : String :=
  let op := (alistGet operator_map c.operator).getD "="
  let value_str :=
    if op = "IN" then
      match c.value with
      | .VList vs => "(" ++ pyJoin ", " (pyReprList vs) ++ ")"
      | v => "(" ++ pyValStr v ++ ")"
    else if op = "BETWEEN" then
      match c.value with
      | .VList [a, b] => pyValStr a ++ " AND " ++ pyValStr b
      | .VTuple [a, b] => pyValStr a ++ " AND " ++ pyValStr b
      | v => pyValStr v
    else pyRepr c.value
  c.field ++ " " ++ op ++ " " ++ value_str

/-- `SQLGenerator._time_range_to_sql`. -/
def time_range_to_sql (calMinus : Int → PyDate) (tr : TimeRange) : Option String :=
  let conds :=
    if optIntTruthy tr.relative_days then
      let n := tr.relative_days.getD 0
      let start_date := strftimeYmd (calMinus n)
      let end_date := strftimeYmd (calMinus 0)
      ["date >= '" ++ start_date ++ "'", "date <= '" ++ end_date ++ "'"]
    else
      (match tr.start_date with
       | some s => if optStrTruthy (some s) then ["date >= '" ++ s ++ "'"] else []
       | none => []) ++
      (match tr.end_date with
       | some s => if optStrTruthy (some s) then ["date <= '" ++ s ++ "'"] else []
       | none => [])
  if conds.isEmpty then none else some (pyJoin " AND " conds)

/-- `SQLGenerator._build_where_clause`. -/
def build_where_clause (calMinus : Int → PyDate) (conditions : List QueryCondition)
    (time_range : Option TimeRange) : Option String :=
  let where_conditions :=
    (conditions.map condition_to_sql).filter (fun s => !s.isEmpty)
  let where_conditions :=
    match time_range with
    | some tr =>
      match time_range_to_sql calMinus tr with
      | some tc => if !tc.isEmpty then where_conditions ++ [tc] else where_conditions
      | none => where_conditions
    | none => where_conditions
  if where_conditions.isEmpty then none else some (pyJoin " AND " where_conditions)

/-- The `f.split(' as ')[-1]` alias extraction of `_build_select_clause`. -/
def lastAliasOf (f : String) : String := (pySplit " as " f).getLastD ""

/-- `SQLGenerator._build_select_clause`. -/
def build_select_clause (aq : AnalyzedQuery) : String :=
  match aq.aggregations with
  | some agg =>
    let select_fields := agg.aggregations.map (fun p => p.2 ++ " as " ++ p.1)
    let select_fields := agg.group_by.foldl
      (fun acc g => if (acc.map lastAliasOf).contains g then acc else acc ++ [g])
      select_fields
    "SELECT " ++ pyJoin ", " select_fields
  | none =>
    if aq.data_source.type = "hive" then "SELECT *" else "SELECT *"

/-- `SQLGenerator._build_from_clause`. -/
def build_from_clause (ds : DataSource) (dialect : String) : String :=
  if optStrTruthy ds.database ∧ (dialect = "hive" ∨ dialect = "spark") then
    "FROM " ++ ds.database.getD "" ++ "." ++ ds.table
  else
    "FROM " ++ ds.table

/-- `SQLGenerator._build_group_by_clause`. -/
def build_group_by_clause (aggregations : Option AggregationConfig) : Option String :=
  match aggregations with
  | some agg => if !agg.group_by.isEmpty then some (pyJoin ", " agg.group_by) else none
  | none => none

/-- `SQLGenerator._build_order_by_clause`. -/
def build_order_by_clause (oc : OutputConfig) : Option String :=
  if optStrTruthy oc.sort_by then
    some (oc.sort_by.getD "" ++ " " ++ pyUpper oc.sort_order)
  else none

/-- `SQLGenerator._build_limit_clause`. -/
def build_limit_clause (oc : OutputConfig) : Option String :=
  if optIntTruthy oc.limit then some (intStr (oc.limit.getD 0)) else none

/-- `SQLGenerator.generate_sql`. -/
def generate_sql (calMinus : Int → PyDate) (aq : AnalyzedQuery)
    (dialect : String := "hive") : String :=
  let dialect := if supported_dialects.contains dialect then dialect else "hive"
  let select_clause := build_select_clause aq
  let from_clause := build_from_clause aq.data_source dialect
  let where_clause := build_where_clause calMinus aq.conditions aq.time_range
  let group_by_clause := build_group_by_clause aq.aggregations
  let order_by_clause := build_order_by_clause aq.output_config
  let limit_clause := build_limit_clause aq.output_config
  let sql_parts := [select_clause, from_clause]
  let sql_parts := match where_clause with
    | some w => if !w.isEmpty then sql_parts ++ ["WHERE " ++ w] else sql_parts
    | none => sql_parts
  let sql_parts := match group_by_clause with
    | some g => if !g.isEmpty then sql_parts ++ ["GROUP BY " ++ g] else sql_parts
    | none => sql_parts
  let sql_parts := match order_by_clause with
    | some o => if !o.isEmpty then sql_parts ++ ["ORDER BY " ++ o] else sql_parts
    | none => sql_parts
  let sql_parts := match limit_clause with
    | some l => if !l.isEmpty then sql_parts ++ ["LIMIT " ++ l] else sql_parts
    | none => sql_parts
  pyJoin " " sql_parts

/-- `SQLGenerator.generate_count_sql`. -/
def generate_count_sql (calMinus : Int → PyDate) (aq : AnalyzedQuery)
    (dialect : String := "hive") : String :=
  let from_clause := build_from_clause aq.data_source dialect
  let where_clause := build_where_clause calMinus aq.conditions aq.time_range
  let sql := "SELECT COUNT(*) as total_count " ++ from_clause
  match where_clause with
  | some w => sql ++ " WHERE " ++ w
  | none => sql

/-- `SQLGenerator.generate_sample_sql`. -/
def generate_sample_sql (calMinus : Int → PyDate) (aq : AnalyzedQuery)
    (sample_size : Int := 10) (dialect : String := "hive") : String :=
  let select_clause := build_select_clause aq
  let from_clause := build_from_clause aq.data_source dialect
  let where_clause := build_where_clause calMinus aq.conditions aq.time_range
  let sql := select_clause ++ " " ++ from_clause
  let sql := match where_clause with
    | some w => sql ++ " WHERE " ++ w
    | none => sql
  sql ++ " LIMIT " ++ intStr sample_size

/-- The result dictionary of `SQLGenerator.validate_sql`. -/
structure ValidationResult where
  valid : Bool
  warnings : List String
  errors : List String
  deriving DecidableEq, Repr

/-- `SQLGenerator.validate_sql`. -/
def validate_sql (sql : String) (dialect : String := "hive") : ValidationResult :=
  let sql_upper := pyUpper sql
  let e1 := !pyStartsWith (pyStrip sql_upper) "SELECT"
  let e2 := !strIn "FROM" sql_upper
  let e3 := countChar sql '(' != countChar sql ')'
  { valid := !(e1 || e2 || e3)
    errors := (if e1 then ["SQL必须以SELECT开头"] else []) ++
      (if e2 then ["缺少FROM子句"] else []) ++
      (if e3 then ["括号不匹配"] else [])
    warnings := if countChar sql '\'' % 2 != 0 then ["单引号可能不匹配"] else [] }

/-! ## task/task_builder.py

The `uuid` and `datetime` collaborators are abstracted as the parameters
`task_id` and `created_at`. -/

/-- `TaskConfig` dataclass. -/
structure TaskConfig where
  task_id : String
  task_type : String
  priority : Int := 1
  timeout_seconds : Int := 3600
  retry_count : Int := 0
  retry_delay : Int := 60
  deriving DecidableEq, Repr

/-- The `resource_limits` dictionary (memory_gb / cores / executor_instances);
values are Python numbers, modelled over `ℚ`. -/
structure ResourceLimits where
  memory_gb : ℚ
  cores : ℚ
  executor_instances : ℚ
  deriving DecidableEq, Repr

/-- `ExecutionContext` dataclass; `cluster_config` is a heterogeneous literal
dictionary, modelled as an association list over the embedded value domain. -/
structure ExecutionContext where
  engine_type : String := "spark"
  cluster_config : List (String × PyVal)
  resource_limits : ResourceLimits

/-- `DataTask` dataclass. -/
structure DataTask where
  task_config : TaskConfig
  analyzed_query : AnalyzedQuery
  execution_context : ExecutionContext
  sql_query : String
  count_sql : Option String := none
  sample_sql : Option String := none
  created_at : String := ""
  status : String := "pending"

/-- `TaskBuilder._determine_task_type`. -/
def determine_task_type (aq : AnalyzedQuery) : String :=
  let intent := aq.intent_result.intent.value
  let type_mapping :=
    [("statistics", "query"), ("analysis", "analysis"), ("trend", "analysis"),
     ("comparison", "analysis"), ("filter", "query"), ("aggregation", "aggregation"),
     ("ranking", "query"), ("distribution", "analysis"), ("correlation", "analysis")]
  (alistGet type_mapping intent).getD "query"

/-- `TaskBuilder._get_cluster_config`. -/
def get_cluster_config (engine_type : String) : List (String × PyVal) :=
  let configs : List (String × List (String × PyVal)) :=
    [("spark", [("master", .VStr "yarn"), ("deploy_mode", .VStr "cluster"),
                ("queue", .VStr "default")]),
     ("hive", [("connection_url", .VStr "thrift://localhost:10000"),
               ("auth_mechanism", .VStr "PLAIN")]),
     ("clickhouse", [("host", .VStr "localhost"), ("port", .VInt 9000),
                     ("database", .VStr "default")]),
     ("presto", [("host", .VStr "localhost"), ("port", .VInt 8080),
                 ("catalog", .VStr "hive"), ("schema", .VStr "default")])]
  (alistGet configs engine_type).getD []

/-- `TaskBuilder._calculate_complexity`; Python float arithmetic on the
model's decimal literals is modelled exactly over `ℚ`. -/
def calculate_complexity (aq : AnalyzedQuery) : ℚ :=
  let factor : ℚ := 1.0
  let factor := if aq.conditions.length > 3 then factor * 1.5 else factor
  let factor :=
    match aq.aggregations with
    | some agg =>
      let f := factor * 2.0
      if agg.group_by.length > 2 then f * 1.5 else f
    | none => factor
  let factor :=
    match aq.time_range with
    | some tr =>
      if optIntTruthy tr.relative_days then
        if tr.relative_days.getD 0 > 30 then factor * 1.2 else factor
      else factor
    | none => factor
  let intent := aq.intent_result.intent.value
  let factor :=
    if intent = "analysis" ∨ intent = "trend" ∨ intent = "correlation" then
      factor * 1.5
    else factor
  min factor 5.0

/-- `TaskBuilder._get_resource_limits`. -/
def get_resource_limits (aq : AnalyzedQuery) (engine_type : String) : ResourceLimits :=
  let base : ResourceLimits := { memory_gb := 2, cores := 1, executor_instances := 1 }
  let complexity_factor := calculate_complexity aq
  if complexity_factor > 1 then
    { memory_gb := min (base.memory_gb * complexity_factor) 16
      cores := min (base.cores * complexity_factor) 8
      executor_instances := min (base.executor_instances * complexity_factor) 4 }
  else base

/-- `TaskBuilder.build_task`; raising `ValueError` is embedded as
`Except.error`. -/
def build_task (calMinus : Int → PyDate) (task_id created_at : String)
    (aq : AnalyzedQuery) (engine_type : String := "spark") (priority : Int := 1)
    (timeout_seconds : Int := 3600) : Except String DataTask :=
  let task_config : TaskConfig :=
    { task_id := task_id, task_type := determine_task_type aq,
      priority := priority, timeout_seconds := timeout_seconds }
  let execution_context : ExecutionContext :=
    { engine_type := engine_type
      cluster_config := get_cluster_config engine_type
      resource_limits := get_resource_limits aq engine_type }
  let sql_query := generate_sql calMinus aq engine_type
  let count_sql := generate_count_sql calMinus aq engine_type
  let sample_sql := generate_sample_sql calMinus aq 5 engine_type
  let validation_result := validate_sql sql_query engine_type
  if !validation_result.valid then
    .error ("生成的SQL无效: " ++ pyRepr (.VList (validation_result.errors.map .VStr)))
  else
    .ok { task_config := task_config, analyzed_query := aq,
          execution_context := execution_context, sql_query := sql_query,
          count_sql := some count_sql, sample_sql := some sample_sql,
          created_at := created_at }

/-! ## result/result_processor.py -/

/-- The query summary dictionary of `_generate_query_summary`. -/
structure QuerySummary where
  original_query : String
  intent : String
  data_source : String
  has_conditions : Bool
  has_aggregations : Bool
  confidence_score : ℚ

/-- `ResultProcessor._generate_query_summary`. -/
def generate_query_summary (aq : AnalyzedQuery) : QuerySummary :=
  { original_query := aq.original_query
    intent := aq.intent_result.intent.value
    data_source := aq.data_source.table
    has_conditions := aq.conditions.length > 0
    has_aggregations := aq.aggregations.isSome
    confidence_score := aq.confidence_score }

/-- The execution-engine result dictionary consumed by `process_result`;
`ρ` is the row type, fields read through `.get` with a default are `Option`. -/
structure ExecutionOutcome (ρ : Type) where
  success : Option Bool := none
  error : Option String := none
  task_id : Option String := none
  execution_time : Option ℚ := none
  data : List ρ := []
  columns : List String := []
  row_count : Option Int := none

/-- Metadata attached to a successful processed result. -/
structure ResultMetadata where
  task_id : Option String
  row_count : Int
  execution_time : ℚ
  output_format : String
  timestamp : String
  query_summary : QuerySummary

/-- The envelope returned by `process_result`: either the error dictionary of
the failure path (which has no data payload) or the success dictionary.
`φ` is the formatted-data type. -/
inductive ProcessedResult (φ : Type) where
  | failure (error : String) (task_id : Option String) (execution_time : ℚ)
      (timestamp : String)
  | ok (data : φ) (metadata : ResultMetadata)

/-- A formatter's `format(data, columns, analyzed_query)` method. -/
def FormatterFn (ρ φ : Type) : Type := List ρ → List String → AnalyzedQuery → φ

/-- `ResultProcessor.process_result`. The four formatter objects installed by
`__init__` are passed as parameters (their behaviour is irrelevant on the
failure path, which the theorems make precise); the registry lookup with
its fall-back to the json formatter is modelled as in the source. The
`datetime.now().isoformat()` collaborator is the parameter `now`. -/
def process_result {ρ φ : Type} (jsonF csvF chartF tableF : FormatterFn ρ φ)
    (execution_result : ExecutionOutcome ρ) (aq : AnalyzedQuery)
    (output_format : String := "json") (now : String := "") : ProcessedResult φ :=
  if !(execution_result.success.getD false) then
    .failure (execution_result.error.getD "未知错误") execution_result.task_id
      (execution_result.execution_time.getD 0) now
  else
    let formatters : List (String × FormatterFn ρ φ) :=
      [("json", jsonF), ("csv", csvF), ("chart", chartF), ("table", tableF)]
    let formatter := (alistGet formatters output_format).getD jsonF
    let processed_data := formatter execution_result.data execution_result.columns aq
    .ok processed_data
      { task_id := execution_result.task_id
        row_count := execution_result.row_count.getD 0
        execution_time := execution_result.execution_time.getD 0
        output_format := output_format
        timestamp := now
        query_summary := generate_query_summary aq }

/-- The `data` payload shapes `paginate_result` distinguishes: a dictionary
containing a `rows` key (with an optional `columns` key), a bare list, or
anything else. -/
inductive PagData (ρ : Type) where
  | table (columns : Option (List String)) (rows : List ρ)
  | list (rows : List ρ)
  | other

/-- The pagination metadata dictionary built by `paginate_result`. -/
structure Pagination where
  page : Int
  page_size : Int
  total_count : Int
  total_pages : Int
  has_next : Bool
  has_prev : Bool
  deriving DecidableEq, Repr

/-- The `data` payload after pagination: a paginated table, a paginated
list, or the unchanged input payload (failure short-circuit and the
"other formats are not paginated" branch). -/
inductive PagOutData (ρ : Type) where
  | table (columns : List String) (rows : List ρ) (pagination : Pagination)
  | list (rows : List ρ) (pagination : Pagination)
  | asIs (d : PagData ρ)

/-- The slice of the fields `paginate_result` reads from a processed result
(and its output: a copy with `data` replaced). -/
structure PagEnvelope (ρ : Type) where
  success : Bool
  data : PagData ρ

/-- A processed result after `paginate_result`. -/
structure PagOutEnvelope (ρ : Type) where
  success : Bool
  data : PagOutData ρ

/-- Normalisation of one Python slice index (negative indices count from
the end, then the index is clamped to `[0, len]`). -/
def pySliceIdx (len : Nat) (i : Int) : Nat :=
  if i < 0 then (max 0 ((len : Int) + i)).toNat else (min i (len : Int)).toNat

/-- Python `l[a:b]`. -/
def pySlice {α : Type} (l : List α) (a b : Int) : List α :=
  (l.take (pySliceIdx l.length b)).drop (pySliceIdx l.length a)

/-- Python integer floor division, raising `ZeroDivisionError` on a zero
divisor. -/
def pyFloorDiv (a b : Int) : Except String Int :=
  if b = 0 then .error "ZeroDivisionError: integer division or modulo by zero"
  else .ok (Int.fdiv a b)

/-- `ResultProcessor.paginate_result`. -/
def paginate_result {ρ : Type} (processed_result : PagEnvelope ρ)
    (page : Int := 1) (page_size : Int := 100) :
    Except String (PagOutEnvelope ρ) :=
  if !processed_result.success then
    .ok { success := processed_result.success, data := .asIs processed_result.data }
  else
    match processed_result.data with
    | .table columns rows => do
      let total_count : Int := rows.length
      let start_idx := (page - 1) * page_size
      let end_idx := start_idx + page_size
      let total_pages ← pyFloorDiv (total_count + page_size - 1) page_size
      .ok { success := processed_result.success
            data := .table (columns.getD []) (pySlice rows start_idx end_idx)
              { page := page, page_size := page_size, total_count := total_count,
                total_pages := total_pages,
                has_next := end_idx < total_count, has_prev := page > 1 } }
    | .list rows => do
      let total_count : Int := rows.length
      let start_idx := (page - 1) * page_size
      let end_idx := start_idx + page_size
      let total_pages ← pyFloorDiv (total_count + page_size - 1) page_size
      .ok { success := processed_result.success
            data := .list (pySlice rows start_idx end_idx)
              { page := page, page_size := page_size, total_count := total_count,
                total_pages := total_pages,
                has_next := end_idx < total_count, has_prev := page > 1 } }
    | .other =>
      .ok { success := processed_result.success, data := .asIs .other }

/-! ## result/formatters.py — CSVFormatter

A row dictionary is an association list in key-insertion order; the claims
under verification concern rows whose values are strings, so the row value
type is `String`. The `csv` module collaborator is modelled with its
documented default dialect: `,` delimiter, `"` quote character, minimal
quoting (a field is quoted iff it contains the delimiter, the quote
character, or a carriage return or newline), quote characters doubled,
`\r\n` line terminator. -/

/-- Does the csv writer have to quote this field (QUOTE_MINIMAL)? -/
def needsQuote (s : String) : Bool :=
  s.data.any (fun c => c == ',' || c == '"' || c == '\r' || c == '\n')

/-- Double every quote character (csv `doublequote=True`). -/
def dupQuotes : List Char → List Char
  | [] => []
  | c :: rest => if c = '"' then '"' :: '"' :: dupQuotes rest else c :: dupQuotes rest

/-- One csv field as written by `csv.writer`. -/
def encodeField (s : String) : String :=
  if needsQuote s then "\"" ++ String.mk (dupQuotes s.data) ++ "\"" else s

/-- One csv record as written by `csv.writer` (fields joined by the
delimiter, then the line terminator). -/
def encodeRow (vs : List String) : String := pyJoin "," (vs.map encodeField) ++ "\r\n"

/-- `CSVFormatter.format`: empty data gives the empty string; otherwise a
`csv.DictWriter` over `columns` (or the first row's keys when no columns are
given) writes the header and then every row. A missing key writes the
writer's `restval` (empty); the claims only concern rows carrying exactly
the column keys. -/
def CSVFormatter.format (data : List (List (String × String)))
    (columns : List String) : String :=
  if data.isEmpty then ""
  else
    let columns := if columns.isEmpty then (data.headD []).map Prod.fst else columns
    encodeRow columns ++
      String.join (data.map (fun r => encodeRow (columns.map (fun c => (alistGet r c).getD ""))))

/-- The effective header `CSVFormatter.format` writes. -/
def effectiveColumns (data : List (List (String × String)))
    (columns : List String) : List String :=
  if columns.isEmpty then (data.headD []).map Prod.fst else columns

/-- Modelled from the spec: parsing csv text back (the round-trip claim's
read side; no csv reader exists in the repository). Standard csv reading:
records separated by the line terminator, fields by the delimiter, a field
starting with a quote character runs to the matching quote with doubled
quotes undone. State: inside-quotes flag, current field (in order), current
record, completed records. -/
def csvParseAux (inQ : Bool) (field : List Char) (row : List String)
    (rows : List (List String)) : List Char → List (List String)
  | [] =>
    if inQ then rows ++ [row ++ [String.mk field]]
    else if field.isEmpty && row.isEmpty then rows
    else rows ++ [row ++ [String.mk field]]
  | c :: rest =>
    if inQ then
      if c = '"' then
        if rest.head? = some '"' then csvParseAux true (field ++ ['"']) row rows rest.tail
        else csvParseAux false field row rows rest
      else csvParseAux true (field ++ [c]) row rows rest
    else
      if c = ',' then csvParseAux false [] (row ++ [String.mk field]) rows rest
      else if c = '\r' then
        if rest.head? = some '\n' then
          csvParseAux false [] [] (rows ++ [row ++ [String.mk field]]) rest.tail
        else csvParseAux false (field ++ [c]) row rows rest
      else if c = '"' then
        if field.isEmpty then csvParseAux true [] row rows rest
        else csvParseAux false (field ++ ['"']) row rows rest
      else csvParseAux false (field ++ [c]) row rows rest
  termination_by l => l.length
  decreasing_by all_goals simp [List.length_tail] <;> omega

/-- Modelled from the spec: parse csv text into its records. -/
def csvParse (s : String) : List (List String) := csvParseAux false [] [] [] s.data

/-- A sample table used to instantiate the round-trip theorem: two rows
over columns a and b, with a delimiter and a quote character among the
values. -/
def csvSampleData : List (List (String × String)) :=
  [[("a", "1,x"), ("b", "he\"llo")], [("a", "y"), ("b", "z")]]

/-! ## Definitions used by the statements of the verified properties -/

/-- A string has as many opening as closing parentheses. -/
def parenBalanced (s : String) : Prop := countChar s '(' = countChar s ')'

instance (s : String) : Decidable (parenBalanced s) := by
  unfold parenBalanced; infer_instance

mutual

/-- Every string inside a condition value is parenthesis-balanced. -/
def PyVal.parensOk : PyVal → Bool
  | .VStr s => countChar s '(' == countChar s ')'
  | .VInt _ => true
  | .VBool _ => true
  | .VNone => true
  | .VList vs => PyVal.parensOkList vs
  | .VTuple vs => PyVal.parensOkList vs

/-- `parensOk` over a list of values. -/
def PyVal.parensOkList : List PyVal → Bool
  | [] => true
  | v :: vs => PyVal.parensOk v && PyVal.parensOkList vs

end

/-- A string with as many opening as closing parentheses, as a Boolean. -/
def strParensOk (s : String) : Bool := countChar s '(' == countChar s ')'

/-- Every string field of an IR is parenthesis-balanced: the condition
fields and values, the aggregation function and alias names, the group-by
fields, the table and database names, the absolute time-range bounds, the
sort field and the sort direction. -/
def irParensBalanced (aq : AnalyzedQuery) : Bool :=
  aq.conditions.all (fun c => strParensOk c.field && PyVal.parensOk c.value) &&
  (match aq.aggregations with
   | some agg =>
     agg.aggregations.all (fun p => strParensOk p.1 && strParensOk p.2) &&
     agg.group_by.all strParensOk
   | none => true) &&
  strParensOk aq.data_source.table &&
  (match aq.data_source.database with
   | some d => strParensOk d
   | none => true) &&
  (match aq.time_range with
   | some tr =>
     (match tr.start_date with | some s => strParensOk s | none => true) &&
     (match tr.end_date with | some s => strParensOk s | none => true)
   | none => true) &&
  (match aq.output_config.sort_by with
   | some s => strParensOk s
   | none => true) &&
  strParensOk aq.output_config.sort_order

/-- The fixed, explicit priority ordering of the intent categories used to
break score ties (highest priority first). -/
def intent_priority : List QueryIntent :=
  [.STATISTICS, .ANALYSIS, .TREND, .COMPARISON, .FILTER,
   .AGGREGATION, .RANKING, .DISTRIBUTION, .CORRELATION]

/-- The keyword score of one intent category on a query. -/
def queryIntentScore (query : String) (i : QueryIntent) : Nat :=
  intentScore (pyLower query) (((intent_keywords.find? (fun p => p.1 == i)).map (·.2)).getD [])

/-- The maximal keyword score over all categories. -/
def maxIntentScore (query : String) : Nat :=
  (intent_priority.map (queryIntentScore query)).foldr max 0

/-- The relative time window of an IR exceeds 30 days. -/
def hasLongRelativeWindow (aq : AnalyzedQuery) : Bool :=
  match aq.time_range with
  | some tr => match tr.relative_days with
    | some n => n > 30
    | none => false
  | none => false

/-- The complexity product as the specification words it: start at 1.0,
×1.5 if the condition count exceeds 3, ×2.0 if an aggregation is present
(further ×1.5 if the group-by count exceeds 2), ×1.2 if the relative time
window exceeds 30 days, ×1.5 if the intent is analysis, trend or
correlation. -/
def specComplexityProduct (aq : AnalyzedQuery) : ℚ :=
  1.0 * (if aq.conditions.length > 3 then 1.5 else 1) *
    (match aq.aggregations with
     | some agg => 2.0 * (if agg.group_by.length > 2 then 1.5 else 1)
     | none => 1) *
    (if hasLongRelativeWindow aq then 1.2 else 1) *
    (if aq.intent_result.intent = .ANALYSIS ∨ aq.intent_result.intent = .TREND ∨
        aq.intent_result.intent = .CORRELATION then 1.5 else 1)

/-- One optional clause of the statement assembly: the prefixed clause text
when present and non-empty, nothing otherwise (the conditional appends of
`generate_sql`, in list form). -/
def optClause (pre : String) (o : Option String) : List String :=
  match o with
  | some v => if !v.isEmpty then [pre ++ v] else []
  | none => []

/-! ## Theorems: cost model -/

/-- The complexity product is at least 1. -/
theorem specComplexityProduct_ge_one (aq : AnalyzedQuery) :
    1 ≤ specComplexityProduct aq := by
  unfold specComplexityProduct hasLongRelativeWindow
  rcases aq.aggregations with _ | agg <;> rcases aq.time_range with _ | tr <;>
    try rcases tr.relative_days with _ | n
  all_goals dsimp only
  all_goals split_ifs <;> norm_num

/-- The complexity product never exceeds 8.1 (every multiplier applied). -/
theorem specComplexityProduct_le (aq : AnalyzedQuery) :
    specComplexityProduct aq ≤ 8.1 := by
  unfold specComplexityProduct hasLongRelativeWindow
  rcases aq.aggregations with _ | agg <;> rcases aq.time_range with _ | tr <;>
    try rcases tr.relative_days with _ | n
  all_goals dsimp only
  all_goals split_ifs <;> norm_num

set_option maxHeartbeats 1000000 in
/-- The implemented complexity factor is the product capped at 5. -/
theorem calculate_complexity_eq_min (aq : AnalyzedQuery) :
    calculate_complexity aq = min (specComplexityProduct aq) 5 := by
  have hiv : (aq.intent_result.intent.value = "analysis" ∨
      aq.intent_result.intent.value = "trend" ∨
      aq.intent_result.intent.value = "correlation") ↔
      (aq.intent_result.intent = .ANALYSIS ∨ aq.intent_result.intent = .TREND ∨
       aq.intent_result.intent = .CORRELATION) := by
    cases aq.intent_result.intent <;> simp [QueryIntent.value]
  unfold calculate_complexity specComplexityProduct hasLongRelativeWindow optIntTruthy
  rcases aq.aggregations with _ | agg <;> rcases aq.time_range with _ | tr <;>
    try (rcases hR : tr.relative_days with _ | n <;> simp only [hR])
  all_goals try dsimp only
  all_goals simp only [bne_iff_ne, ne_eq, gt_iff_lt, decide_eq_true_eq,
    Option.getD_some, hiv]
  all_goals split_ifs <;> (try contradiction) <;> (try omega) <;> norm_num

/-- C2: for every IR, `TaskBuilder._calculate_complexity` returns a factor in
[1.0, 5.0], and that factor equals the clamp to [1.0, 5.0] of the product
starting at 1.0 with ×1.5 if the condition count exceeds 3, ×2.0 if an
aggregation is present (further ×1.5 if the group-by count exceeds 2), ×1.2
if the relative time window exceeds 30 days, and ×1.5 if the intent is
analysis, trend or correlation. -/
theorem complexity_factor_bounded_and_is_clamped_product (aq : AnalyzedQuery) :
    calculate_complexity aq = max 1 (min (specComplexityProduct aq) 5) ∧
    1 ≤ calculate_complexity aq ∧ calculate_complexity aq ≤ 5 := by
  have h1 := specComplexityProduct_ge_one aq
  have he := calculate_complexity_eq_min aq
  refine ⟨?_, ?_, ?_⟩
  · rw [he, max_eq_right]
    exact le_min h1 (by norm_num)
  · rw [he]
    exact le_min h1 (by norm_num)
  · rw [he]
    exact min_le_right _ _

/-- The complexity factor is at least 1. -/
theorem calculate_complexity_ge_one (aq : AnalyzedQuery) :
    1 ≤ calculate_complexity aq := by
  rw [calculate_complexity_eq_min]
  exact le_min (specComplexityProduct_ge_one aq) (by norm_num)

/-- The complexity factor is at most 5. -/
theorem calculate_complexity_le_five (aq : AnalyzedQuery) :
    calculate_complexity aq ≤ 5 := by
  rw [calculate_complexity_eq_min]
  exact min_le_right _ _

/-- C9: for every IR and engine type, the resource limits are exactly the
base {memory=2, cores=1, instances=1} each multiplied by the complexity
factor and capped at the ceilings {memory≤16, cores≤8, instances≤4}; hence
each limit is at least its base value and never exceeds its ceiling. -/
theorem resource_limits_scaled_and_capped (aq : AnalyzedQuery) (engine_type : String) :
    get_resource_limits aq engine_type =
      { memory_gb := min (2 * calculate_complexity aq) 16
        cores := min (1 * calculate_complexity aq) 8
        executor_instances := min (1 * calculate_complexity aq) 4 } ∧
    2 ≤ (get_resource_limits aq engine_type).memory_gb ∧
    (get_resource_limits aq engine_type).memory_gb ≤ 16 ∧
    1 ≤ (get_resource_limits aq engine_type).cores ∧
    (get_resource_limits aq engine_type).cores ≤ 8 ∧
    1 ≤ (get_resource_limits aq engine_type).executor_instances ∧
    (get_resource_limits aq engine_type).executor_instances ≤ 4 := by
  have h1 := calculate_complexity_ge_one aq
  have heq : get_resource_limits aq engine_type =
      { memory_gb := min (2 * calculate_complexity aq) 16
        cores := min (1 * calculate_complexity aq) 8
        executor_instances := min (1 * calculate_complexity aq) 4 } := by
    unfold get_resource_limits
    dsimp only
    split_ifs with h
    · rfl
    · have hone : calculate_complexity aq = 1 := le_antisymm (not_lt.mp h) h1
      rw [hone]
      simp only [ResourceLimits.mk.injEq]
      norm_num
  rw [heq]
  refine ⟨rfl, ?_, ?_, ?_, ?_, ?_, ?_⟩ <;> dsimp only
  · exact le_min (by linarith) (by norm_num)
  · exact min_le_right _ _
  · exact le_min (by linarith) (by norm_num)
  · exact min_le_right _ _
  · exact le_min (by linarith) (by norm_num)
  · exact min_le_right _ _

/-! ## Theorems: intent classification -/

/-- An upper bound for every element bounds the running maximum. -/
theorem foldr_max_le {m : Nat} : ∀ {l : List Nat}, (∀ x ∈ l, x ≤ m) →
    l.foldr max 0 ≤ m := by
  intro l h
  induction l with
  | nil => exact Nat.zero_le m
  | cons a t ih =>
    simp only [List.foldr_cons]
    exact max_le (h a (List.mem_cons_self _ _))
      (ih fun x hx => h x (List.mem_cons_of_mem _ hx))

/-- The running maximum of a list equals any member that bounds the list. -/
theorem foldr_max_eq {l : List Nat} {m : Nat} (hm : m ∈ l)
    (hle : ∀ x ∈ l, x ≤ m) : l.foldr max 0 = m := by
  induction l with
  | nil => cases hm
  | cons a t ih =>
    simp only [List.foldr_cons]
    rcases List.mem_cons.mp hm with rfl | hm2
    · exact le_antisymm
        (max_le le_rfl (foldr_max_le fun x hx => hle x (List.mem_cons_of_mem _ hx)))
        (le_max_left _ _)
    · rw [ih hm2 (fun x hx => hle x (List.mem_cons_of_mem _ hx))]
      exact max_eq_right (hle a (List.mem_cons_self _ _))

/-- The keep-first-maximum fold splits its input into a strictly smaller
prefix, the returned element, and a suffix, and bounds every element. -/
theorem foldl_pickmax_decomp (xs : List (QueryIntent × Nat)) :
    ∀ x : QueryIntent × Nat,
    ∃ pre post,
      x :: xs = pre ++ (xs.foldl (fun q p => if p.2 > q.2 then p else q) x) :: post ∧
      (∀ p ∈ pre, p.2 < (xs.foldl (fun q p => if p.2 > q.2 then p else q) x).2) ∧
      (∀ p ∈ x :: xs, p.2 ≤ (xs.foldl (fun q p => if p.2 > q.2 then p else q) x).2) := by
  induction xs with
  | nil =>
    intro x
    refine ⟨[], [], rfl, by simp, ?_⟩
    intro p hp
    rcases List.mem_cons.mp hp with rfl | hp2
    · exact le_rfl
    · cases hp2
  | cons p xs ih =>
    intro x
    simp only [List.foldl_cons]
    by_cases h : p.2 > x.2
    · rw [if_pos h]
      obtain ⟨pre, post, hdec, hlt, hle⟩ := ih p
      refine ⟨x :: pre, post, ?_, ?_, ?_⟩
      · rw [List.cons_append, ← hdec]
      · intro q hq
        rcases List.mem_cons.mp hq with rfl | hq2
        · exact lt_of_lt_of_le h (hle p (List.mem_cons_self _ _))
        · exact hlt q hq2
      · intro q hq
        rcases List.mem_cons.mp hq with rfl | hq2
        · exact le_of_lt (lt_of_lt_of_le h (hle p (List.mem_cons_self _ _)))
        · exact hle q hq2
    · rw [if_neg h]
      obtain ⟨pre, post, hdec, hlt, hle⟩ := ih x
      rcases pre with _ | ⟨a, pre2⟩
      · simp only [List.nil_append] at hdec
        have hx : x = xs.foldl (fun q p => if p.2 > q.2 then p else q) x := by
          injection hdec
        refine ⟨[], p :: xs, ?_, by simp, ?_⟩
        · rw [List.nil_append, ← hx]
        · intro q hq
          rcases List.mem_cons.mp hq with rfl | hq2
          · exact hle q (List.mem_cons_self _ _)
          · rcases List.mem_cons.mp hq2 with rfl | hq3
            · exact le_trans (not_lt.mp h) (hle x (List.mem_cons_self _ _))
            · exact hle q (List.mem_cons_of_mem _ hq3)
      · rw [List.cons_append] at hdec
        injection hdec with h1 h2
        subst h1
        refine ⟨x :: p :: pre2, post, ?_, ?_, ?_⟩
        · simp only [List.cons_append]
          exact congrArg (fun t => x :: p :: t) h2
        · intro q hq
          rcases List.mem_cons.mp hq with rfl | hq2
          · exact hlt q (List.mem_cons_self _ _)
          · rcases List.mem_cons.mp hq2 with rfl | hq3
            · exact lt_of_le_of_lt (not_lt.mp h) (hlt x (List.mem_cons_self _ _))
            · exact hlt q (List.mem_cons_of_mem _ hq3)
        · intro q hq
          rcases List.mem_cons.mp hq with rfl | hq2
          · exact hle q (List.mem_cons_self _ _)
          · rcases List.mem_cons.mp hq2 with rfl | hq3
            · exact le_trans (not_lt.mp h) (hle x (List.mem_cons_self _ _))
            · exact hle q (List.mem_cons_of_mem _ hq3)

/-- `pyMaxBySnd` of a non-empty list is a member. -/
theorem pyMaxBySnd_decomp {l : List (QueryIntent × Nat)} (h : l ≠ []) :
    ∃ pre post, l = pre ++ pyMaxBySnd l :: post ∧
      (∀ p ∈ pre, p.2 < (pyMaxBySnd l).2) ∧
      (∀ p ∈ l, p.2 ≤ (pyMaxBySnd l).2) := by
  match l with
  | x :: xs => exact foldl_pickmax_decomp xs x

/-- `pyMaxBySnd` of a non-empty list is one of its elements. -/
theorem pyMaxBySnd_mem {l : List (QueryIntent × Nat)} (h : l ≠ []) :
    pyMaxBySnd l ∈ l := by
  obtain ⟨pre, post, hdec, _, _⟩ := pyMaxBySnd_decomp h
  have hmem : pyMaxBySnd l ∈ pre ++ pyMaxBySnd l :: post :=
    List.mem_append_right _ (List.mem_cons_self _ _)
  rw [← hdec] at hmem
  exact hmem

/-- Looking an intent up in the keyword map retrieves its own entry (the
keys of the literal dictionary are distinct). -/
theorem intent_keywords_find_self : ∀ q ∈ intent_keywords,
    intent_keywords.find? (fun p => p.1 == q.1) = some q := by
  intro q hq
  fin_cases hq <;> rfl

/-- Each scored pair carries the score of its own category. -/
theorem mem_scores_eq (query : String) :
    ∀ p ∈ intent_keywords.map (fun p => (p.1, intentScore (pyLower query) p.2)),
      queryIntentScore query p.1 = p.2 := by
  intro p hp
  obtain ⟨q, hq, rfl⟩ := List.mem_map.mp hp
  unfold queryIntentScore
  rw [intent_keywords_find_self q hq]
  rfl

/-- The priority list is the key sequence of the keyword map. -/
theorem intent_priority_eq_keys :
    intent_priority = intent_keywords.map (·.1) := rfl

/-- The score sequence of the scored pairs is the score sequence over the
priority list. -/
theorem scores_snd_eq (query : String) :
    (intent_keywords.map (fun p => (p.1, intentScore (pyLower query) p.2))).map (·.2) =
      intent_priority.map (queryIntentScore query) := rfl

/-- The scored list is never empty. -/
theorem intent_scores_ne_nil (query : String) :
    intent_keywords.map (fun p => (p.1, intentScore (pyLower query) p.2)) ≠ [] := by
  simp [intent_keywords]

/-- Case analysis of `recognize_intent`: either no keyword scored (the
default branch) or the winner is the maximal pair of the scored list. -/
theorem recognize_intent_cases (query : String) :
    ((pyMaxBySnd (intent_keywords.map (fun p => (p.1, intentScore (pyLower query) p.2)))).2 = 0 ∧
      (recognize_intent query).intent = .STATISTICS ∧
      (recognize_intent query).confidence = 0.5) ∨
    ((pyMaxBySnd (intent_keywords.map (fun p => (p.1, intentScore (pyLower query) p.2)))).2 ≠ 0 ∧
      (recognize_intent query).intent =
        (pyMaxBySnd (intent_keywords.map (fun p => (p.1, intentScore (pyLower query) p.2)))).1 ∧
      ∃ len : Nat, (recognize_intent query).confidence =
        min (((pyMaxBySnd (intent_keywords.map (fun p => (p.1, intentScore (pyLower query) p.2)))).2 : ℚ) /
          (max 1 (len : ℚ))) 1) := by
  unfold recognize_intent
  dsimp only
  by_cases h0 :
      (pyMaxBySnd (intent_keywords.map (fun p => (p.1, intentScore (pyLower query) p.2)))).2 = 0
  · left
    refine ⟨h0, ?_, ?_⟩ <;>
      simp only [h0, Nat.cast_zero, zero_div, if_pos rfl] <;> norm_num
  · right
    have hc : ((pyMaxBySnd (intent_keywords.map (fun p => (p.1, intentScore (pyLower query) p.2)))).2 : ℚ) /
        (max 1 ((((intent_keywords.find? (fun p =>
          p.1 == (pyMaxBySnd (intent_keywords.map (fun p => (p.1, intentScore (pyLower query) p.2)))).1)).map
            (·.2)).getD []).length : ℚ)) ≠ 0 := by
      apply div_ne_zero
      · exact_mod_cast h0
      · have : (1 : ℚ) ≤ max 1 ((((intent_keywords.find? (fun p =>
            p.1 == (pyMaxBySnd (intent_keywords.map (fun p => (p.1, intentScore (pyLower query) p.2)))).1)).map
              (·.2)).getD []).length : ℚ) := le_max_left _ _
        linarith
    refine ⟨h0, ?_,
      ⟨(((intent_keywords.find? (fun p =>
          p.1 == (pyMaxBySnd (intent_keywords.map (fun p =>
            (p.1, intentScore (pyLower query) p.2)))).1)).map (·.2)).getD []).length, ?_⟩⟩
    · simp only [if_neg hc]
    · simp only [if_neg hc]
      norm_num

/-- C6: the confidence returned by `recognize_intent` always lies in [0, 1],
and whenever no keyword of any category occurs case-insensitively in the
text, the result is intent STATISTICS with confidence 0.5. -/
theorem recognize_intent_confidence_bounds_and_default (query : String) :
    (0 ≤ (recognize_intent query).confidence ∧ (recognize_intent query).confidence ≤ 1) ∧
    ((∀ pair ∈ intent_keywords, ∀ k ∈ pair.2, strIn (pyLower k) (pyLower query) = false) →
      (recognize_intent query).intent = .STATISTICS ∧
      (recognize_intent query).confidence = 0.5) := by
  constructor
  · rcases recognize_intent_cases query with ⟨_, _, hc⟩ | ⟨_, _, len, hc⟩
    · rw [hc]
      norm_num
    · rw [hc]
      constructor
      · apply le_min _ (by norm_num)
        apply div_nonneg (Nat.cast_nonneg _)
        have : (1 : ℚ) ≤ max 1 (len : ℚ) := le_max_left _ _
        linarith
      · exact min_le_right _ _
  · intro hno
    have hzero :
        (pyMaxBySnd (intent_keywords.map (fun p => (p.1, intentScore (pyLower query) p.2)))).2 = 0 := by
      have hall : ∀ p ∈ intent_keywords.map (fun p => (p.1, intentScore (pyLower query) p.2)),
          p.2 = 0 := by
        intro p hp
        obtain ⟨q, hq, rfl⟩ := List.mem_map.mp hp
        exact List.countP_eq_zero.mpr (fun k hk => by simp [hno q hq k hk])
      exact hall _ (pyMaxBySnd_mem (intent_scores_ne_nil query))
    rcases recognize_intent_cases query with ⟨_, hi, hc⟩ | ⟨hne, _, _⟩
    · exact ⟨hi, hc⟩
    · exact absurd hzero hne

/-- C6 witness: the unmatched text `"xyz123"` satisfies the no-keyword
hypothesis and yields intent STATISTICS with confidence 0.5, in [0, 1]. -/
theorem recognize_intent_confidence_bounds_and_default_witness :
    (0 ≤ (recognize_intent "xyz123").confidence ∧
      (recognize_intent "xyz123").confidence ≤ 1) ∧
    (recognize_intent "xyz123").intent = .STATISTICS ∧
    (recognize_intent "xyz123").confidence = 0.5 :=
  ⟨(recognize_intent_confidence_bounds_and_default "xyz123").1,
   (recognize_intent_confidence_bounds_and_default "xyz123").2 (by decide)⟩

/-- C7: whenever two or more categories attain the maximal keyword score,
`recognize_intent` picks the winner by the fixed, explicit priority
ordering `intent_priority`: the winner attains the maximal score and every
category strictly before it in that ordering scores strictly below the
maximum. -/
theorem tie_broken_by_fixed_priority (query : String)
    (htie : ∃ i ∈ intent_priority, ∃ j ∈ intent_priority, i ≠ j ∧
      queryIntentScore query i = maxIntentScore query ∧
      queryIntentScore query j = maxIntentScore query) :
    ∃ w pre post,
      (recognize_intent query).intent = w ∧
      intent_priority = pre ++ w :: post ∧
      queryIntentScore query w = maxIntentScore query ∧
      ∀ i ∈ pre, queryIntentScore query i < maxIntentScore query := by
  have hne := intent_scores_ne_nil query
  obtain ⟨pre, post, hdec, hlt, hle⟩ := pyMaxBySnd_decomp hne
  have hmem := pyMaxBySnd_mem hne
  have hps := mem_scores_eq query
  have hmax : maxIntentScore query =
      (pyMaxBySnd (intent_keywords.map (fun p => (p.1, intentScore (pyLower query) p.2)))).2 := by
    unfold maxIntentScore
    rw [← scores_snd_eq query]
    apply foldr_max_eq
    · exact List.mem_map_of_mem _ hmem
    · intro x hx
      obtain ⟨p, hp, rfl⟩ := List.mem_map.mp hx
      exact hle p hp
  have hprio : intent_priority = pre.map (·.1) ++
      (pyMaxBySnd (intent_keywords.map (fun p => (p.1, intentScore (pyLower query) p.2)))).1 ::
        post.map (·.1) := by
    have hkeys : intent_priority =
        (intent_keywords.map (fun p => (p.1, intentScore (pyLower query) p.2))).map (·.1) := rfl
    rw [hkeys]
    conv_lhs => rw [hdec]
    rw [List.map_append, List.map_cons]
  refine ⟨_, pre.map (·.1), post.map (·.1), ?_, hprio, ?_, ?_⟩
  · rcases recognize_intent_cases query with ⟨h0, hint, _⟩ | ⟨_, hint, _⟩
    · rw [hint]
      have hpre : pre = [] := by
        cases pre with
        | nil => rfl
        | cons a t =>
          have := hlt a (List.mem_cons_self _ _)
          omega
      subst hpre
      have hhead : (intent_keywords.map (fun p => (p.1, intentScore (pyLower query) p.2))).head? =
          some (pyMaxBySnd (intent_keywords.map (fun p => (p.1, intentScore (pyLower query) p.2)))) := by
        conv_lhs => rw [hdec]
        rfl
      have hstat : ((intent_keywords.map (fun p =>
          (p.1, intentScore (pyLower query) p.2))).head?).map (·.1) =
          some QueryIntent.STATISTICS := rfl
      rw [hhead] at hstat
      exact (Option.some.inj hstat).symm
    · exact hint
  · rw [hmax]
    exact hps _ hmem
  · intro i hi
    obtain ⟨p, hp, rfl⟩ := List.mem_map.mp hi
    rw [hps p (by rw [hdec]; exact List.mem_append_left _ hp), hmax]
    exact hlt p hp

/-- C7 witness: in `"分析 趋势"` the categories ANALYSIS and TREND tie at
the maximal score, and the theorem applies. -/
theorem tie_broken_by_fixed_priority_witness :
    ∃ w pre post,
      (recognize_intent "分析 趋势").intent = w ∧
      intent_priority = pre ++ w :: post ∧
      queryIntentScore "分析 趋势" w = maxIntentScore "分析 趋势" ∧
      ∀ i ∈ pre, queryIntentScore "分析 趋势" i < maxIntentScore "分析 趋势" :=
  tie_broken_by_fixed_priority "分析 趋势"
    ⟨.ANALYSIS, by decide, .TREND, by decide, by decide, by decide, by decide⟩

/-! ## Theorems: result processing -/

/-- C3: a failed execution outcome short-circuits `process_result` to the
error envelope carrying the message, task id and execution time, for every
requested output format and for every behaviour of the four formatters (so
no formatter is invoked and no formatted payload exists on that path). -/
theorem failed_outcome_yields_error_envelope {ρ φ : Type}
    (jsonF csvF chartF tableF : FormatterFn ρ φ)
    (res : ExecutionOutcome ρ) (aq : AnalyzedQuery) (fmt now : String)
    (hfail : res.success.getD false = false) :
    process_result jsonF csvF chartF tableF res aq fmt now =
      .failure (res.error.getD "未知错误") res.task_id (res.execution_time.getD 0) now := by
  unfold process_result
  rw [hfail]
  rfl

/-- C3 witness: a concrete failed outcome produces exactly the error
envelope, independently of the requested csv format. -/
theorem failed_outcome_yields_error_envelope_witness :
    process_result (ρ := Nat) (φ := Nat) (fun _ _ _ => 0) (fun _ _ _ => 1)
      (fun _ _ _ => 2) (fun _ _ _ => 3)
      { success := some false, error := some "connection lost",
        task_id := some "t1", execution_time := some 2 }
      { original_query := "q"
        intent_result := { intent := .STATISTICS, confidence := 0, parameters := {},
                           raw_query := "q" }
        data_source := { name := "d", type := "hive", table := "t" }
        conditions := [] }
      "csv" "2026-10-12T00:00:00" =
      .failure "connection lost" (some "t1") 2 "2026-10-12T00:00:00" :=
  failed_outcome_yields_error_envelope _ _ _ _ _ _ _ _ rfl

/-- `(total + ps - 1) fdiv ps` is the ceiling of `total / ps` for a
non-negative total and positive page size. -/
theorem fdiv_add_pred_eq_ceil (total ps : Int) (h0 : 0 ≤ total) (h1 : 1 ≤ ps) :
    Int.fdiv (total + ps - 1) ps = ⌈(total : ℚ) / (ps : ℚ)⌉ := by
  have hps : (0 : ℤ) < ps := by omega
  rw [Int.fdiv_eq_ediv _ (by omega)]
  have hmod := Int.ediv_add_emod (total + ps - 1) ps
  have hmn := @Int.emod_nonneg (total + ps - 1) ps (by omega)
  have hml := Int.emod_lt_of_pos (total + ps - 1) hps
  have hub : total ≤ ps * ((total + ps - 1) / ps) := by linarith
  have hlb : ps * ((total + ps - 1) / ps - 1) < total := by
    have hexp : ps * ((total + ps - 1) / ps - 1) = ps * ((total + ps - 1) / ps) - ps := by
      ring
    linarith
  symm
  rw [Int.ceil_eq_iff]
  have hpsq : (0 : ℚ) < (ps : ℚ) := by exact_mod_cast hps
  constructor
  · rw [lt_div_iff hpsq]
    have : ((total + ps - 1) / ps - 1 : ℤ) * ps < total := by linarith
    calc ((((total + ps - 1) / ps : ℤ) : ℚ) - 1) * (ps : ℚ)
        = ((((total + ps - 1) / ps - 1 : ℤ) : ℚ)) * (ps : ℚ) := by push_cast; ring
      _ < (total : ℚ) := by exact_mod_cast this
  · rw [div_le_iff hpsq]
    have : total ≤ ((total + ps - 1) / ps : ℤ) * ps := by linarith
    exact_mod_cast this

/-- The normalised Python slice of a page is drop-then-take. -/
theorem take_min_drop_min {α : Type} (l : List α) (sN k : Nat) :
    (l.take (min (sN + k) l.length)).drop (min sN l.length) = (l.drop sN).take k := by
  rcases le_total sN l.length with h | h
  · rw [min_eq_left h]
    rcases le_total (sN + k) l.length with h2 | h2
    · rw [min_eq_left h2, List.drop_take]
      congr 1
      omega
    · rw [min_eq_right h2, List.take_length]
      symm
      apply List.take_of_length_le
      rw [List.length_drop]
      omega
  · rw [min_eq_right h, min_eq_right (by omega), List.take_length, List.drop_length]
    rw [List.drop_eq_nil_iff.mpr h]
    simp

/-- `pySlice` of the page window is drop-then-take. -/
theorem pySlice_page {α : Type} (l : List α) (page ps : Int)
    (hp : 1 ≤ page) (hps : 1 ≤ ps) :
    pySlice l ((page - 1) * ps) ((page - 1) * ps + ps) =
      (l.drop ((page - 1) * ps).toNat).take ps.toNat := by
  have hs0 : 0 ≤ (page - 1) * ps := mul_nonneg (by omega) (by omega)
  have he0 : 0 ≤ (page - 1) * ps + ps := by linarith
  unfold pySlice pySliceIdx
  rw [if_neg (not_lt.mpr hs0), if_neg (not_lt.mpr he0)]
  have hm1 : (min ((page - 1) * ps + ps) (l.length : Int)).toNat =
      min (((page - 1) * ps).toNat + ps.toNat) l.length := by
    omega
  have hm2 : (min ((page - 1) * ps) (l.length : Int)).toNat =
      min ((page - 1) * ps).toNat l.length := by
    omega
  rw [hm1, hm2]
  exact take_min_drop_min l _ _

/-- C5: for success envelopes of both supported shapes and any page ≥ 1,
page_size ≥ 1, pagination returns (without error) the drop/take page
window, total_pages = ceil(total/page_size), has_next exactly when
page*page_size < total, and has_prev exactly when page > 1; out-of-range
pages simply get an empty slice. -/
theorem paginate_result_pages {ρ : Type} (page ps : Int) (cols : Option (List String))
    (rows : List ρ) (hp : 1 ≤ page) (hps : 1 ≤ ps) :
    (paginate_result (⟨true, .table cols rows⟩ : PagEnvelope ρ) page ps =
      .ok ⟨true, .table (cols.getD []) ((rows.drop ((page - 1) * ps).toNat).take ps.toNat)
        { page := page, page_size := ps, total_count := rows.length,
          total_pages := ⌈(rows.length : ℚ) / (ps : ℚ)⌉,
          has_next := decide (page * ps < (rows.length : Int)),
          has_prev := decide (1 < page) }⟩) ∧
    (paginate_result (⟨true, .list rows⟩ : PagEnvelope ρ) page ps =
      .ok ⟨true, .list ((rows.drop ((page - 1) * ps).toNat).take ps.toNat)
        { page := page, page_size := ps, total_count := rows.length,
          total_pages := ⌈(rows.length : ℚ) / (ps : ℚ)⌉,
          has_next := decide (page * ps < (rows.length : Int)),
          has_prev := decide (1 < page) }⟩) := by
  have hps0 : ¬((ps : Int) = 0) := by omega
  have hceil := fdiv_add_pred_eq_ceil (rows.length : Int) ps
    (by exact_mod_cast Nat.zero_le _) hps
  have hslice := pySlice_page rows page ps hp hps
  have hring : (page - 1) * ps + ps = page * ps := by ring
  rw [hring] at hslice
  constructor <;>
    simp only [paginate_result, pyFloorDiv, if_neg hps0, Bool.not_true,
      Bool.false_eq_true, if_false, bind, Except.bind, hring, hslice, hceil,
      Int.cast_natCast, gt_iff_lt]

set_option maxRecDepth 4000 in
/-- C5 witness: paginating a concrete successful 257-row list envelope with
page 3 and page size 100 returns 57 rows with has_prev and without
has_next, total_pages = 3 = ceil(257/100); page 1 holds 100 rows with
has_next only, and page 4 is empty without error. -/
theorem paginate_result_pages_witness :
    (paginate_result (⟨true, .list (List.range 257)⟩ : PagEnvelope Nat) 3 100 =
      .ok ⟨true, .list (((List.range 257).drop (((3 : Int) - 1) * 100).toNat).take (100 : Int).toNat)
        { page := 3, page_size := 100, total_count := (List.range 257).length,
          total_pages := ⌈((List.range 257).length : ℚ) / ((100 : Int) : ℚ)⌉,
          has_next := decide ((3 : Int) * 100 < ((List.range 257).length : Int)),
          has_prev := decide ((1 : Int) < 3) }⟩) ∧
    ((List.range 257).drop (((3 : Int) - 1) * 100).toNat).take (100 : Int).toNat =
      (List.range 257).drop 200 ∧
    ((List.range 257).drop 200).length = 57 ∧
    ⌈((List.range 257).length : ℚ) / ((100 : Int) : ℚ)⌉ = 3 ∧
    decide ((3 : Int) * 100 < ((List.range 257).length : Int)) = false ∧
    decide ((1 : Int) < 3) = true ∧
    ((List.range 257).drop ((((1 : Int)) - 1) * 100).toNat).take (100 : Int).toNat =
      (List.range 257).take 100 ∧
    ((List.range 257).take 100).length = 100 ∧
    ((List.range 257).drop (((4 : Int) - 1) * 100).toNat).take (100 : Int).toNat = [] := by
  refine ⟨(paginate_result_pages 3 100 none (List.range 257) (by norm_num) (by norm_num)).2,
    ?_, ?_, ?_, ?_, ?_, ?_, ?_, ?_⟩
  · norm_num
    apply List.take_of_length_le
    simp
  · simp
  · simp only [List.length_range]
    rw [Int.ceil_eq_iff]
    constructor <;> (push_cast; norm_num)
  · decide
  · decide
  · decide
  · simp
  · apply List.eq_nil_of_length_eq_zero
    simp

/-- C10: with page_size = 0, `paginate_result` on a successful envelope of
either supported data shape reaches the unguarded integer division and
fails with a ZeroDivisionError instead of returning a paginated result. -/
theorem paginate_result_zero_page_size_raises {ρ : Type} (page : Int)
    (cols : Option (List String)) (rows : List ρ) :
    paginate_result (⟨true, .table cols rows⟩ : PagEnvelope ρ) page 0 =
      .error "ZeroDivisionError: integer division or modulo by zero" ∧
    paginate_result (⟨true, .list rows⟩ : PagEnvelope ρ) page 0 =
      .error "ZeroDivisionError: integer division or modulo by zero" := by
  constructor <;> rfl

/-! ## Theorems: SQL generation — parenthesis balance and shape -/

/-- String concatenation concatenates the character data. -/
theorem strData_append (a b : String) : (a ++ b).data = a.data ++ b.data := rfl

/-- Character counts add over concatenation. -/
theorem countChar_append (a b : String) (c : Char) :
    countChar (a ++ b) c = countChar a c + countChar b c := by
  unfold countChar
  rw [strData_append, List.countP_append]

/-- Balance is preserved by concatenation. -/
theorem parenBalanced_append {a b : String} (ha : parenBalanced a)
    (hb : parenBalanced b) : parenBalanced (a ++ b) := by
  unfold parenBalanced at *
  rw [countChar_append, countChar_append, ha, hb]

/-- Balance is preserved by joining balanced parts with a balanced
separator. -/
theorem parenBalanced_pyJoin {sep : String} (hsep : parenBalanced sep) :
    ∀ {l : List String}, (∀ x ∈ l, parenBalanced x) → parenBalanced (pyJoin sep l) := by
  intro l
  induction l with
  | nil =>
    intro _
    show parenBalanced ""
    decide
  | cons x xs ih =>
    intro h
    match xs, ih with
    | [], _ => exact h x (List.mem_cons_self _ _)
    | y :: ys, ih =>
      exact parenBalanced_append
        (parenBalanced_append (h x (List.mem_cons_self _ _)) hsep)
        (ih fun z hz => h z (List.mem_cons_of_mem _ hz))

/-- Wrapping a balanced string in one pair of parentheses stays balanced. -/
theorem parenBalanced_wrap {s : String} (h : parenBalanced s) :
    parenBalanced ("(" ++ s ++ ")") := by
  unfold parenBalanced at *
  rw [countChar_append, countChar_append, countChar_append, countChar_append, h]
  have c1 : countChar "(" '(' = 1 := rfl
  have c2 : countChar "(" ')' = 0 := rfl
  have c3 : countChar ")" '(' = 0 := rfl
  have c4 : countChar ")" ')' = 1 := rfl
  omega

/-- The Boolean and the propositional balance agree. -/
theorem strParensOk_iff (s : String) : strParensOk s = true ↔ parenBalanced s := by
  unfold strParensOk parenBalanced
  exact beq_iff_eq

/-- Every character of a rendered natural number is a decimal digit. -/
theorem numStr_mem (n : Nat) : ∀ c ∈ (numStr n).data, ∃ d, d < 10 ∧ c = Char.ofNat (48 + d) := by
  induction n using Nat.strong_induction_on with
  | _ n ih =>
    rw [numStr]
    split_ifs with h
    · intro c hc
      have hcc : c = Char.ofNat (48 + n) := by simpa using hc
      exact ⟨n, h, hcc⟩
    · intro c hc
      rw [strData_append] at hc
      rcases List.mem_append.mp hc with hc | hc
      · exact ih (n / 10) (Nat.div_lt_self (by omega) (by omega)) c hc
      · have hcc : c = Char.ofNat (48 + n % 10) := by simpa using hc
        exact ⟨n % 10, Nat.mod_lt _ (by omega), hcc⟩

/-- A rendered natural number contains no parenthesis characters. -/
theorem numStr_countChar_paren (n : Nat) (c : Char) (hc : c = '(' ∨ c = ')') :
    countChar (numStr n) c = 0 := by
  unfold countChar
  rw [List.countP_eq_zero]
  intro x hx
  obtain ⟨d, hd, rfl⟩ := numStr_mem n x hx
  rcases hc with rfl | rfl <;>
    · interval_cases d <;> decide

/-- A rendered natural number is balanced. -/
theorem numStr_balanced (n : Nat) : parenBalanced (numStr n) := by
  unfold parenBalanced
  rw [numStr_countChar_paren n _ (Or.inl rfl), numStr_countChar_paren n _ (Or.inr rfl)]

/-- A rendered integer is balanced. -/
theorem intStr_balanced (i : Int) : parenBalanced (intStr i) := by
  unfold intStr
  split_ifs
  · exact parenBalanced_append (by decide) (numStr_balanced _)
  · exact numStr_balanced _

/-- Zero padding preserves balance. -/
theorem padZeros_balanced (k : Nat) {s : String} (h : parenBalanced s) :
    parenBalanced (padZeros k s) := by
  unfold padZeros
  split_ifs
  · refine parenBalanced_append ?_ h
    unfold parenBalanced countChar
    rw [List.countP_eq_zero.mpr, List.countP_eq_zero.mpr] <;>
      intro x hx <;> rw [List.eq_of_mem_replicate hx] <;> decide
  · exact h

/-- A formatted date is balanced. -/
theorem strftimeYmd_balanced (d : PyDate) : parenBalanced (strftimeYmd d) := by
  unfold strftimeYmd
  refine parenBalanced_append (parenBalanced_append (parenBalanced_append
    (parenBalanced_append ?_ ?_) ?_) ?_) ?_ <;>
    first
      | exact padZeros_balanced _ (numStr_balanced _)
      | decide

/-- Escaping inside `repr` does not change parenthesis counts. -/
theorem reprEscape_countP (l : List Char) (c : Char) (hc : c = '(' ∨ c = ')') :
    (reprEscape l).countP (· == c) = l.countP (· == c) := by
  induction l with
  | nil => rfl
  | cons x xs ih =>
    rw [reprEscape]
    split_ifs with h
    · rcases h with rfl | rfl <;>
        · rw [List.countP_cons, List.countP_cons, List.countP_cons, ih]
          rcases hc with rfl | rfl <;> simp
    · rw [List.countP_cons, List.countP_cons, ih]

/-- Uppercasing does not change parenthesis occurrences. -/
theorem toUpper_beq_paren (x c : Char) (hc : c = '(' ∨ c = ')') :
    (x.toUpper == c) = (x == c) := by
  unfold Char.toUpper
  dsimp only
  split_ifs with h
  · have h1 : x ≠ c := by
      rcases hc with rfl | rfl <;>
        · intro he
          rw [he] at h
          revert h
          decide
    have h2 : Char.ofNat (x.toNat - 32) ≠ c := by
      intro he
      obtain ⟨h97, h122⟩ := h
      set n := x.toNat with hn
      interval_cases n <;> revert he <;> rcases hc with rfl | rfl <;> decide
    rw [beq_eq_false_iff_ne.mpr h1, beq_eq_false_iff_ne.mpr h2]
  · rfl

/-- Uppercasing a string preserves balance. -/
theorem pyUpper_balanced {s : String} (h : parenBalanced s) :
    parenBalanced (pyUpper s) := by
  unfold parenBalanced countChar pyUpper at *
  have key : ∀ (c : Char), c = '(' ∨ c = ')' →
      (s.data.map Char.toUpper).countP (· == c) = s.data.countP (· == c) := by
    intro c hc
    rw [List.countP_map]
    apply List.countP_congr
    intro x _
    have hever := toUpper_beq_paren x c hc
    simp only [Function.comp_apply, hever]
  rw [key '(' (Or.inl rfl), key ')' (Or.inr rfl)]
  exact h

/-- Wrapping a balanced string as a one-element tuple stays balanced. -/
theorem parenBalanced_wrapTuple {s : String} (h : parenBalanced s) :
    parenBalanced ("(" ++ s ++ ",)") := by
  unfold parenBalanced at *
  rw [countChar_append, countChar_append, countChar_append, countChar_append, h]
  have c1 : countChar "(" '(' = 1 := rfl
  have c2 : countChar "(" ')' = 0 := rfl
  have c3 : countChar ",)" '(' = 0 := rfl
  have c4 : countChar ",)" ')' = 1 := rfl
  omega

mutual

/-- `repr` of a value with balanced strings is balanced. -/
theorem pyRepr_balanced : ∀ v : PyVal, PyVal.parensOk v = true → parenBalanced (pyRepr v)
  | .VStr s, h => by
    rw [pyRepr]
    refine parenBalanced_append (parenBalanced_append (by decide) ?_) (by decide)
    have hs : countChar s '(' = countChar s ')' := by
      simpa [PyVal.parensOk] using h
    unfold parenBalanced countChar at *
    show (reprEscape s.data).countP _ = (reprEscape s.data).countP _
    rw [reprEscape_countP _ _ (Or.inl rfl), reprEscape_countP _ _ (Or.inr rfl)]
    exact hs
  | .VInt n, _ => by
    rw [pyRepr]
    exact intStr_balanced n
  | .VBool b, _ => by
    rw [pyRepr]
    cases b <;> decide
  | .VNone, _ => by
    rw [pyRepr]
    decide
  | .VList vs, h => by
    rw [pyRepr]
    refine parenBalanced_append (parenBalanced_append (by decide) ?_) (by decide)
    refine parenBalanced_pyJoin (by decide) ?_
    intro x hx
    exact pyReprList_balanced vs (by simpa [PyVal.parensOk] using h) x hx
  | .VTuple [], _ => by
    rw [pyRepr]
    decide
  | .VTuple [v], h => by
    rw [pyRepr]
    refine parenBalanced_wrapTuple ?_
    have hv : PyVal.parensOk v = true := by
      have hh : PyVal.parensOkList [v] = true := by simpa [PyVal.parensOk] using h
      simp [PyVal.parensOkList] at hh
      exact hh
    exact pyRepr_balanced v hv
  | .VTuple (v1 :: v2 :: rest), h => by
    rw [pyRepr]
    refine parenBalanced_wrap ?_
    refine parenBalanced_pyJoin (by decide) ?_
    intro x hx
    exact pyReprList_balanced (v1 :: v2 :: rest) (by simpa [PyVal.parensOk] using h) x hx

/-- Every `repr` in a list of values with balanced strings is balanced. -/
theorem pyReprList_balanced : ∀ vs : List PyVal, PyVal.parensOkList vs = true →
    ∀ s ∈ pyReprList vs, parenBalanced s
  | [], _, s, hs => by
    rw [pyReprList] at hs
    cases hs
  | v :: vs, h, s, hs => by
    rw [pyReprList] at hs
    have hsplit : PyVal.parensOk v = true ∧ PyVal.parensOkList vs = true := by
      simpa [PyVal.parensOkList, Bool.and_eq_true] using h
    rcases List.mem_cons.mp hs with rfl | hs
    · exact pyRepr_balanced v hsplit.1
    · exact pyReprList_balanced vs hsplit.2 s hs

end

/-- `str` of a value with balanced strings is balanced. -/
theorem pyValStr_balanced (v : PyVal) (h : PyVal.parensOk v = true) :
    parenBalanced (pyValStr v) := by
  cases v with
  | VStr s =>
    rw [pyValStr]
    unfold parenBalanced
    simpa [PyVal.parensOk] using h
  | VInt n => exact pyRepr_balanced _ h
  | VBool b => exact pyRepr_balanced _ h
  | VNone => exact pyRepr_balanced _ h
  | VList vs => exact pyRepr_balanced _ h
  | VTuple vs => exact pyRepr_balanced _ h

/-- The SQL operator resolved from the operator table is balanced. -/
theorem operator_map_balanced (key : String) :
    parenBalanced ((alistGet operator_map key).getD "=") := by
  unfold alistGet
  cases hf : operator_map.find? (fun p => p.1 == key) with
  | none =>
    show parenBalanced "="
    decide
  | some p =>
    have hall : ∀ q ∈ operator_map, parenBalanced q.2 := by decide
    exact hall p (List.mem_of_find?_eq_some hf)

/-- A rendered condition with balanced field and value strings is
balanced. -/
theorem condition_to_sql_balanced (c : QueryCondition) (hf : parenBalanced c.field)
    (hv : PyVal.parensOk c.value = true) : parenBalanced (condition_to_sql c) := by
  unfold condition_to_sql
  refine parenBalanced_append (parenBalanced_append (parenBalanced_append
    (parenBalanced_append hf (by decide)) (operator_map_balanced c.operator)) (by decide)) ?_
  split_ifs with h1 h2
  · split
    next vs heq =>
      rw [heq] at hv
      refine parenBalanced_wrap (parenBalanced_pyJoin (by decide) ?_)
      exact pyReprList_balanced vs (by simpa [PyVal.parensOk] using hv)
    next v hne =>
      exact parenBalanced_wrap (pyValStr_balanced _ hv)
  · split
    next a b heq =>
      rw [heq] at hv
      simp only [PyVal.parensOk, PyVal.parensOkList, Bool.and_eq_true, Bool.and_true] at hv
      exact parenBalanced_append (parenBalanced_append (pyValStr_balanced a hv.1) (by decide))
        (pyValStr_balanced b hv.2)
    next a b heq =>
      rw [heq] at hv
      simp only [PyVal.parensOk, PyVal.parensOkList, Bool.and_eq_true, Bool.and_true] at hv
      exact parenBalanced_append (parenBalanced_append (pyValStr_balanced a hv.1) (by decide))
        (pyValStr_balanced b hv.2)
    next v hne1 hne2 =>
      exact pyValStr_balanced _ hv
  · exact pyRepr_balanced _ hv

/-- Elements of an optional clause come from the present clause value. -/
theorem mem_optClause {pre : String} {o : Option String} {x : String}
    (hx : x ∈ optClause pre o) : ∃ v, o = some v ∧ x = pre ++ v := by
  unfold optClause at hx
  cases o with
  | none =>
    dsimp only at hx
    cases hx
  | some v =>
    dsimp only at hx
    split_ifs at hx
    · have hxx : x = pre ++ v := by simpa using hx
      exact ⟨v, rfl, hxx⟩
    · cases hx

/-- The statement is the space-join of the clause list. -/
theorem generate_sql_eq (calMinus : Int → PyDate) (aq : AnalyzedQuery) (dialect : String) :
    generate_sql calMinus aq dialect =
      pyJoin " " (build_select_clause aq ::
        build_from_clause aq.data_source
          (if supported_dialects.contains dialect then dialect else "hive") ::
        (optClause "WHERE " (build_where_clause calMinus aq.conditions aq.time_range) ++
         optClause "GROUP BY " (build_group_by_clause aq.aggregations) ++
         optClause "ORDER BY " (build_order_by_clause aq.output_config) ++
         optClause "LIMIT " (build_limit_clause aq.output_config))) := by
  unfold generate_sql optClause
  cases build_where_clause calMinus aq.conditions aq.time_range <;>
    cases build_group_by_clause aq.aggregations <;>
    cases build_order_by_clause aq.output_config <;>
    cases build_limit_clause aq.output_config <;>
    dsimp only <;>
    split_ifs <;>
    rfl

/-- A present time-range predicate is balanced when the absolute bounds
are. -/
theorem time_range_to_sql_balanced (calMinus : Int → PyDate) (tr : TimeRange)
    (hs : ∀ s, tr.start_date = some s → parenBalanced s)
    (he : ∀ s, tr.end_date = some s → parenBalanced s) :
    ∀ w, time_range_to_sql calMinus tr = some w → parenBalanced w := by
  intro w hw
  unfold time_range_to_sql at hw
  dsimp only at hw
  by_cases hrel : optIntTruthy tr.relative_days = true
  · rw [if_pos hrel, if_neg (by simp)] at hw
    rw [← Option.some.inj hw]
    refine parenBalanced_pyJoin (by decide) ?_
    intro x hx
    rcases List.mem_cons.mp hx with rfl | hx
    · exact parenBalanced_append (parenBalanced_append (by decide)
        (strftimeYmd_balanced _)) (by decide)
    · rcases List.mem_cons.mp hx with rfl | hx
      · exact parenBalanced_append (parenBalanced_append (by decide)
          (strftimeYmd_balanced _)) (by decide)
      · cases hx
  · rw [if_neg hrel] at hw
    split_ifs at hw with hemp
    cases hw
    refine parenBalanced_pyJoin (by decide) ?_
    intro x hx
    rcases List.mem_append.mp hx with hx | hx
    · cases hsd : tr.start_date with
      | none =>
        rw [hsd] at hx
        dsimp only at hx
        cases hx
      | some s =>
        rw [hsd] at hx
        dsimp only at hx
        split_ifs at hx
        · have hxx : x = "date >= '" ++ s ++ "'" := by simpa using hx
          rw [hxx]
          exact parenBalanced_append (parenBalanced_append (by decide) (hs s hsd)) (by decide)
        · cases hx
    · cases hed : tr.end_date with
      | none =>
        rw [hed] at hx
        dsimp only at hx
        cases hx
      | some s =>
        rw [hed] at hx
        dsimp only at hx
        split_ifs at hx
        · have hxx : x = "date <= '" ++ s ++ "'" := by simpa using hx
          rw [hxx]
          exact parenBalanced_append (parenBalanced_append (by decide) (he s hed)) (by decide)
        · cases hx

/-- A present WHERE clause is balanced when condition and time-range
strings are. -/
theorem build_where_clause_balanced (calMinus : Int → PyDate)
    (conditions : List QueryCondition) (time_range : Option TimeRange)
    (hc : ∀ c ∈ conditions, parenBalanced c.field ∧ PyVal.parensOk c.value = true)
    (htr : ∀ tr, time_range = some tr →
      (∀ s, tr.start_date = some s → parenBalanced s) ∧
      (∀ s, tr.end_date = some s → parenBalanced s)) :
    ∀ w, build_where_clause calMinus conditions time_range = some w → parenBalanced w := by
  intro w hw
  unfold build_where_clause at hw
  dsimp only at hw
  have hbase : ∀ x ∈ (conditions.map condition_to_sql).filter (fun s => !s.isEmpty),
      parenBalanced x := by
    intro x hx
    obtain ⟨cc, hcc, rfl⟩ := List.mem_map.mp (List.mem_of_mem_filter hx)
    exact condition_to_sql_balanced cc (hc cc hcc).1 (hc cc hcc).2
  cases htr0 : time_range with
  | none =>
    rw [htr0] at hw
    dsimp only at hw
    split_ifs at hw
    cases hw
    exact parenBalanced_pyJoin (by decide) hbase
  | some tr =>
    rw [htr0] at hw
    dsimp only at hw
    have hts := time_range_to_sql_balanced calMinus tr (htr tr htr0).1 (htr tr htr0).2
    cases hts0 : time_range_to_sql calMinus tr with
    | none =>
      rw [hts0] at hw
      dsimp only at hw
      split_ifs at hw
      cases hw
      exact parenBalanced_pyJoin (by decide) hbase
    | some tc =>
      rw [hts0] at hw
      dsimp only at hw
      split_ifs at hw with h1 h2 h3
      · cases hw
        refine parenBalanced_pyJoin (by decide) ?_
        intro x hx
        rcases List.mem_append.mp hx with hx | hx
        · exact hbase x hx
        · have hxx : x = tc := by simpa using hx
          rw [hxx]
          exact hts tc hts0
      · cases hw
        exact parenBalanced_pyJoin (by decide) hbase

/-- Members of the deduplicating select-field fold come from the initial
fields or the group-by fields. -/
theorem select_fold_mem (groupBy : List String) :
    ∀ (init : List String) (x : String),
      x ∈ groupBy.foldl
        (fun acc g => if (acc.map lastAliasOf).contains g then acc else acc ++ [g]) init →
      x ∈ init ∨ x ∈ groupBy := by
  induction groupBy with
  | nil =>
    intro init x hx
    exact Or.inl hx
  | cons g gs ih =>
    intro init x hx
    rw [List.foldl_cons] at hx
    rcases ih _ x hx with h | h
    · by_cases hcon : ((init.map lastAliasOf).contains g) = true
      · rw [if_pos hcon] at h
        exact Or.inl h
      · rw [if_neg hcon] at h
        rcases List.mem_append.mp h with h | h
        · exact Or.inl h
        · have hxg : x = g := by simpa using h
          exact Or.inr (hxg ▸ List.mem_cons_self _ _)
    · exact Or.inr (List.mem_cons_of_mem _ h)

/-- String concatenation is associative. -/
theorem strAppend_assoc (a b c : String) : (a ++ b) ++ c = a ++ (b ++ c) :=
  congrArg String.mk (List.append_assoc a.data b.data c.data)

/-- The SELECT clause is balanced when the aggregation entry strings and
group-by fields are. -/
theorem build_select_clause_balanced (aq : AnalyzedQuery)
    (hagg : ∀ agg, aq.aggregations = some agg →
      (∀ p ∈ agg.aggregations, parenBalanced p.1 ∧ parenBalanced p.2) ∧
      (∀ g ∈ agg.group_by, parenBalanced g)) :
    parenBalanced (build_select_clause aq) := by
  unfold build_select_clause
  cases haggs : aq.aggregations with
  | none =>
    dsimp only
    split_ifs <;> decide
  | some agg =>
    dsimp only
    obtain ⟨hfns, hgb⟩ := hagg agg haggs
    refine parenBalanced_append (by decide) (parenBalanced_pyJoin (by decide) ?_)
    intro x hx
    rcases select_fold_mem agg.group_by _ x hx with h | h
    · obtain ⟨p, hp, rfl⟩ := List.mem_map.mp h
      exact parenBalanced_append (parenBalanced_append (hfns p hp).2 (by decide)) (hfns p hp).1
    · exact hgb x h

/-- The SELECT clause always begins with the word SELECT. -/
theorem build_select_clause_starts (aq : AnalyzedQuery) :
    ∃ rest, build_select_clause aq = "SELECT" ++ rest := by
  unfold build_select_clause
  cases aq.aggregations with
  | none =>
    dsimp only
    split_ifs <;> exact ⟨" *", rfl⟩
  | some agg =>
    dsimp only
    refine ⟨" " ++ pyJoin ", "
      (agg.group_by.foldl
        (fun acc g => if (acc.map lastAliasOf).contains g then acc else acc ++ [g])
        (agg.aggregations.map fun p => p.2 ++ " as " ++ p.1)), ?_⟩
    rw [← strAppend_assoc]
    rfl

/-- The FROM clause is balanced when the table and database names are. -/
theorem build_from_clause_balanced (ds : DataSource) (dialect : String)
    (ht : parenBalanced ds.table)
    (hd : ∀ d, ds.database = some d → parenBalanced d) :
    parenBalanced (build_from_clause ds dialect) := by
  unfold build_from_clause
  split_ifs
  · refine parenBalanced_append (parenBalanced_append (parenBalanced_append (by decide) ?_)
      (by decide)) ht
    cases hdb : ds.database with
    | none => decide
    | some d => exact hd d hdb
  · exact parenBalanced_append (by decide) ht

/-- The FROM clause always begins with the word FROM. -/
theorem build_from_clause_starts (ds : DataSource) (dialect : String) :
    ∃ rest, build_from_clause ds dialect = "FROM " ++ rest := by
  unfold build_from_clause
  split_ifs
  · exact ⟨ds.database.getD "" ++ "." ++ ds.table, by rw [← strAppend_assoc, ← strAppend_assoc]⟩
  · exact ⟨ds.table, rfl⟩

/-- A present GROUP BY clause is balanced when the group-by fields are. -/
theorem build_group_by_clause_balanced (aggregations : Option AggregationConfig)
    (hagg : ∀ agg, aggregations = some agg → ∀ g ∈ agg.group_by, parenBalanced g) :
    ∀ w, build_group_by_clause aggregations = some w → parenBalanced w := by
  intro w hw
  unfold build_group_by_clause at hw
  cases haggs : aggregations with
  | none =>
    rw [haggs] at hw
    cases hw
  | some agg =>
    rw [haggs] at hw
    dsimp only at hw
    split_ifs at hw
    cases hw
    exact parenBalanced_pyJoin (by decide) (hagg agg haggs)

/-- A present ORDER BY clause is balanced when the sort field and sort
direction strings are. -/
theorem build_order_by_clause_balanced (oc : OutputConfig)
    (hsb : ∀ s, oc.sort_by = some s → parenBalanced s)
    (hso : parenBalanced oc.sort_order) :
    ∀ w, build_order_by_clause oc = some w → parenBalanced w := by
  intro w hw
  unfold build_order_by_clause at hw
  split_ifs at hw
  cases hw
  refine parenBalanced_append (parenBalanced_append ?_ (by decide)) (pyUpper_balanced hso)
  cases hsb0 : oc.sort_by with
  | none => decide
  | some s => exact hsb s hsb0

/-- A present LIMIT clause is balanced. -/
theorem build_limit_clause_balanced (oc : OutputConfig) :
    ∀ w, build_limit_clause oc = some w → parenBalanced w := by
  intro w hw
  unfold build_limit_clause at hw
  split_ifs at hw
  cases hw
  exact intStr_balanced _

/-- Substring search finds a pattern occurring in the middle. -/
theorem containsSub_middle (p x y : List Char) :
    containsSub p (x ++ (p ++ y)) = true := by
  induction x with
  | nil =>
    rw [List.nil_append]
    cases hp : p ++ y with
    | nil =>
      rw [containsSub]
      have : p = [] := by
        cases p with
        | nil => rfl
        | cons a t => simp at hp
      rw [this]
      rfl
    | cons c rest =>
      rw [containsSub, ← hp]
      have : p.isPrefixOf (p ++ y) = true := by
        rw [List.isPrefixOf_iff_prefix]
        exact List.prefix_append p y
      rw [this]
      rfl
  | cons c xs ih =>
    rw [List.cons_append, containsSub, ih]
    exact Bool.or_true _

/-- A space-join of a non-empty list extends its head. -/
theorem pyJoin_cons (sep x : String) (xs : List String) :
    ∃ t, pyJoin sep (x :: xs) = x ++ t := by
  cases xs with
  | nil => exact ⟨"", (congrArg String.mk (List.append_nil x.data)).symm⟩
  | cons y ys =>
    refine ⟨sep ++ pyJoin sep (y :: ys), ?_⟩
    rw [pyJoin, strAppend_assoc]
    simp

/-- Uppercasing distributes over concatenation. -/
theorem pyUpper_append (a b : String) : pyUpper (a ++ b) = pyUpper a ++ pyUpper b := by
  unfold pyUpper
  rw [strData_append]
  exact congrArg String.mk (List.map_append _ _ _)

/-- Removing trailing whitespace after a whitespace-free prefix keeps the
prefix. -/
theorem dropTrailingWs_append (p r : List Char)
    (hp : ∀ c ∈ p, c.isWhitespace = false) :
    dropTrailingWs (p ++ r) = p ++ dropTrailingWs r := by
  unfold dropTrailingWs
  rw [List.reverse_append, List.dropWhile_append]
  have hrev : List.dropWhile Char.isWhitespace p.reverse = p.reverse := by
    cases hpr : p.reverse with
    | nil => rfl
    | cons hd tl =>
      have hhd : hd ∈ p := by
        rw [← List.mem_reverse, hpr]
        exact List.mem_cons_self _ _
      rw [List.dropWhile_cons_of_neg]
      rw [hp hd hhd]
      simp
  split_ifs with h
  · rw [hrev, List.reverse_reverse]
    have : List.dropWhile Char.isWhitespace r.reverse = [] := List.isEmpty_iff.mp (by simpa using h)
    rw [this]
    simp
  · rw [List.reverse_append, List.reverse_reverse]

/-- The generated statement starts with the word SELECT. -/
theorem generate_sql_starts (calMinus : Int → PyDate) (aq : AnalyzedQuery)
    (dialect : String) :
    ∃ t, generate_sql calMinus aq dialect = "SELECT" ++ t := by
  rw [generate_sql_eq]
  obtain ⟨r, hr⟩ := build_select_clause_starts aq
  obtain ⟨t, ht⟩ := pyJoin_cons " " (build_select_clause aq)
    (build_from_clause aq.data_source
      (if supported_dialects.contains dialect then dialect else "hive") ::
      (optClause "WHERE " (build_where_clause calMinus aq.conditions aq.time_range) ++
       optClause "GROUP BY " (build_group_by_clause aq.aggregations) ++
       optClause "ORDER BY " (build_order_by_clause aq.output_config) ++
       optClause "LIMIT " (build_limit_clause aq.output_config)))
  rw [ht, hr, strAppend_assoc]
  exact ⟨r ++ t, rfl⟩

/-- The generated statement contains the word FROM after its SELECT
clause. -/
theorem generate_sql_from_middle (calMinus : Int → PyDate) (aq : AnalyzedQuery)
    (dialect : String) :
    ∃ a b, generate_sql calMinus aq dialect = a ++ ("FROM" ++ b) := by
  rw [generate_sql_eq]
  obtain ⟨fr, hfr⟩ := build_from_clause_starts aq.data_source
    (if supported_dialects.contains dialect then dialect else "hive")
  obtain ⟨t, ht⟩ := pyJoin_cons " "
    (build_from_clause aq.data_source
      (if supported_dialects.contains dialect then dialect else "hive"))
    (optClause "WHERE " (build_where_clause calMinus aq.conditions aq.time_range) ++
     optClause "GROUP BY " (build_group_by_clause aq.aggregations) ++
     optClause "ORDER BY " (build_order_by_clause aq.output_config) ++
     optClause "LIMIT " (build_limit_clause aq.output_config))
  rw [pyJoin, ht, hfr]
  · refine ⟨build_select_clause aq ++ " ", " " ++ fr ++ t, ?_⟩
    rw [strAppend_assoc, strAppend_assoc, strAppend_assoc]
    rfl
  · simp

/-- The generated statement has balanced parentheses whenever every string
field of the IR does. -/
theorem generate_sql_balanced_core (calMinus : Int → PyDate) (aq : AnalyzedQuery)
    (dialect : String)
    (hc : ∀ c ∈ aq.conditions, parenBalanced c.field ∧ PyVal.parensOk c.value = true)
    (hagg : ∀ agg, aq.aggregations = some agg →
      (∀ p ∈ agg.aggregations, parenBalanced p.1 ∧ parenBalanced p.2) ∧
      (∀ g ∈ agg.group_by, parenBalanced g))
    (ht : parenBalanced aq.data_source.table)
    (hd : ∀ d, aq.data_source.database = some d → parenBalanced d)
    (htr : ∀ tr, aq.time_range = some tr →
      (∀ s, tr.start_date = some s → parenBalanced s) ∧
      (∀ s, tr.end_date = some s → parenBalanced s))
    (hsb : ∀ s, aq.output_config.sort_by = some s → parenBalanced s)
    (hso : parenBalanced aq.output_config.sort_order) :
    parenBalanced (generate_sql calMinus aq dialect) := by
  rw [generate_sql_eq]
  refine parenBalanced_pyJoin (by decide) ?_
  intro x hx
  rcases List.mem_cons.mp hx with rfl | hx
  · exact build_select_clause_balanced aq hagg
  rcases List.mem_cons.mp hx with rfl | hx
  · exact build_from_clause_balanced aq.data_source _ ht hd
  rcases List.mem_append.mp hx with hx | hx
  rotate_left
  · obtain ⟨v, hv, rfl⟩ := mem_optClause hx
    exact parenBalanced_append (by decide) (build_limit_clause_balanced aq.output_config v hv)
  rcases List.mem_append.mp hx with hx | hx
  rotate_left
  · obtain ⟨v, hv, rfl⟩ := mem_optClause hx
    exact parenBalanced_append (by decide)
      (build_order_by_clause_balanced aq.output_config hsb hso v hv)
  rcases List.mem_append.mp hx with hx | hx
  · obtain ⟨v, hv, rfl⟩ := mem_optClause hx
    exact parenBalanced_append (by decide)
      (build_where_clause_balanced calMinus aq.conditions aq.time_range hc htr v hv)
  · obtain ⟨v, hv, rfl⟩ := mem_optClause hx
    exact parenBalanced_append (by decide)
      (build_group_by_clause_balanced aq.aggregations (fun agg ha => (hagg agg ha).2) v hv)

/-- A statement of the form `SELECT …` passes the upper-strip prefix
check. -/
theorem pyStartsWith_strip_upper_select (t : String) :
    pyStartsWith (pyStrip (pyUpper ("SELECT" ++ t))) "SELECT" = true := by
  rw [pyUpper_append, show pyUpper "SELECT" = "SELECT" from by decide]
  unfold pyStrip pyStartsWith dropLeadingWs
  rw [strData_append]
  have hdw : List.dropWhile Char.isWhitespace ("SELECT".data ++ (pyUpper t).data) =
      "SELECT".data ++ (pyUpper t).data := by
    rw [show ("SELECT".data ++ (pyUpper t).data : List Char) =
      'S' :: ("ELECT".data ++ (pyUpper t).data) from rfl]
    exact List.dropWhile_cons_of_neg (by decide)
  rw [hdw, dropTrailingWs_append _ _ (by decide)]
  exact List.isPrefixOf_iff_prefix.mpr (List.prefix_append _ _)

/-- A statement containing ` FROM` passes the containment check after
uppercasing. -/
theorem strIn_from_middle (a b : String) :
    strIn "FROM" (pyUpper (a ++ ("FROM" ++ b))) = true := by
  rw [pyUpper_append, pyUpper_append, show pyUpper "FROM" = "FROM" from by decide]
  unfold strIn
  rw [strData_append, strData_append]
  exact containsSub_middle _ _ _

/-- A statement passing the three structural checks validates cleanly. -/
theorem validate_sql_results (sql dialect : String)
    (hsel : pyStartsWith (pyStrip (pyUpper sql)) "SELECT" = true)
    (hfrom : strIn "FROM" (pyUpper sql) = true)
    (hbal : countChar sql '(' = countChar sql ')') :
    (validate_sql sql dialect).valid = true ∧ (validate_sql sql dialect).errors = [] := by
  unfold validate_sql
  dsimp only
  rw [hsel, hfrom, hbal]
  simp

/-- Unpacking the Boolean IR balance predicate into its components. -/
theorem irParensBalanced_props (aq : AnalyzedQuery) (h : irParensBalanced aq = true) :
    (∀ c ∈ aq.conditions, parenBalanced c.field ∧ PyVal.parensOk c.value = true) ∧
    (∀ agg, aq.aggregations = some agg →
      (∀ p ∈ agg.aggregations, parenBalanced p.1 ∧ parenBalanced p.2) ∧
      (∀ g ∈ agg.group_by, parenBalanced g)) ∧
    parenBalanced aq.data_source.table ∧
    (∀ d, aq.data_source.database = some d → parenBalanced d) ∧
    (∀ tr, aq.time_range = some tr →
      (∀ s, tr.start_date = some s → parenBalanced s) ∧
      (∀ s, tr.end_date = some s → parenBalanced s)) ∧
    (∀ s, aq.output_config.sort_by = some s → parenBalanced s) ∧
    parenBalanced aq.output_config.sort_order := by
  unfold irParensBalanced at h
  simp only [Bool.and_eq_true, List.all_eq_true] at h
  obtain ⟨⟨⟨⟨⟨⟨h1, h2⟩, h3⟩, h4⟩, h5⟩, h6⟩, h7⟩ := h
  refine ⟨?_, ?_, (strParensOk_iff _).mp h3, ?_, ?_, ?_, (strParensOk_iff _).mp h7⟩
  · intro c hc
    have hcc := h1 c hc
    exact ⟨(strParensOk_iff _).mp hcc.1, hcc.2⟩
  · intro agg hagg
    rw [hagg] at h2
    dsimp only at h2
    rw [Bool.and_eq_true] at h2
    constructor
    · intro p hp
      have hpp := List.all_eq_true.mp h2.1 p hp
      rw [Bool.and_eq_true] at hpp
      exact ⟨(strParensOk_iff _).mp hpp.1, (strParensOk_iff _).mp hpp.2⟩
    · intro g hg
      exact (strParensOk_iff _).mp (List.all_eq_true.mp h2.2 g hg)
  · intro d hd
    rw [hd] at h4
    exact (strParensOk_iff _).mp h4
  · intro tr htr
    rw [htr] at h5
    dsimp only at h5
    rw [Bool.and_eq_true] at h5
    constructor
    · intro s hss
      rw [hss] at h5
      dsimp only at h5
      exact (strParensOk_iff _).mp h5.1
    · intro s hss
      rw [hss] at h5
      dsimp only at h5
      exact (strParensOk_iff _).mp h5.2
  · intro s hss
    rw [hss] at h6
    exact (strParensOk_iff _).mp h6

/-- C1 (amended): for every IR whose string fields each carry as many
opening as closing parentheses, and every dialect, the generated statement
starts with SELECT, contains FROM, and has an equal number of opening and
closing parentheses, so `validate_sql` reports no errors. -/
theorem generate_sql_wellformed_of_balanced_ir (calMinus : Int → PyDate)
    (aq : AnalyzedQuery) (dialect : String) (hbal : irParensBalanced aq = true) :
    pyStartsWith (generate_sql calMinus aq dialect) "SELECT" = true ∧
    strIn "FROM" (pyUpper (generate_sql calMinus aq dialect)) = true ∧
    countChar (generate_sql calMinus aq dialect) '(' =
      countChar (generate_sql calMinus aq dialect) ')' ∧
    (validate_sql (generate_sql calMinus aq dialect) dialect).valid = true ∧
    (validate_sql (generate_sql calMinus aq dialect) dialect).errors = [] := by
  obtain ⟨hc, hagg, ht, hd, htr, hsb, hso⟩ := irParensBalanced_props aq hbal
  obtain ⟨t, hts⟩ := generate_sql_starts calMinus aq dialect
  obtain ⟨a, b, hfm⟩ := generate_sql_from_middle calMinus aq dialect
  have hsel : pyStartsWith (pyStrip (pyUpper (generate_sql calMinus aq dialect)))
      "SELECT" = true := by
    rw [hts]
    exact pyStartsWith_strip_upper_select t
  have hfrom : strIn "FROM" (pyUpper (generate_sql calMinus aq dialect)) = true := by
    rw [hfm]
    exact strIn_from_middle a b
  have hbal2 : countChar (generate_sql calMinus aq dialect) '(' =
      countChar (generate_sql calMinus aq dialect) ')' :=
    generate_sql_balanced_core calMinus aq dialect hc hagg ht hd htr hsb hso
  have hraw : pyStartsWith (generate_sql calMinus aq dialect) "SELECT" = true := by
    rw [hts]
    unfold pyStartsWith
    rw [strData_append]
    exact List.isPrefixOf_iff_prefix.mpr (List.prefix_append _ _)
  obtain ⟨hv, he⟩ := validate_sql_results _ dialect hsel hfrom hbal2
  exact ⟨hraw, hfrom, hbal2, hv, he⟩

/-- C1 witness: a concrete IR whose strings are individually
parenthesis-balanced (including a value `COUNT(x)`-style aggregation)
produces a statement passing all structural checks. -/
theorem generate_sql_wellformed_of_balanced_ir_witness :
    pyStartsWith (generate_sql (fun _ => ⟨2026, 10, 12⟩)
      { original_query := "统计订单"
        intent_result := { intent := .STATISTICS, confidence := 1, parameters := {},
                           raw_query := "统计订单" }
        data_source := { name := "orders", type := "hive", table := "order_info",
                         database := some "default" }
        conditions := [{ field := "city", operator := "in",
                         value := .VList [.VStr "北京", .VStr "上海"] },
                       { field := "amount", operator := ">", value := .VInt 100 }]
        aggregations := some { group_by := ["city"],
                               aggregations := [("cnt", "COUNT(*)")] }
        time_range := some { relative_days := some 7 }
        output_config := { limit := some 10, sort_by := some "cnt" } } "hive") "SELECT" = true ∧
    strIn "FROM" (pyUpper (generate_sql (fun _ => ⟨2026, 10, 12⟩)
      { original_query := "统计订单"
        intent_result := { intent := .STATISTICS, confidence := 1, parameters := {},
                           raw_query := "统计订单" }
        data_source := { name := "orders", type := "hive", table := "order_info",
                         database := some "default" }
        conditions := [{ field := "city", operator := "in",
                         value := .VList [.VStr "北京", .VStr "上海"] },
                       { field := "amount", operator := ">", value := .VInt 100 }]
        aggregations := some { group_by := ["city"],
                               aggregations := [("cnt", "COUNT(*)")] }
        time_range := some { relative_days := some 7 }
        output_config := { limit := some 10, sort_by := some "cnt" } } "hive")) = true ∧
    countChar (generate_sql (fun _ => ⟨2026, 10, 12⟩)
      { original_query := "统计订单"
        intent_result := { intent := .STATISTICS, confidence := 1, parameters := {},
                           raw_query := "统计订单" }
        data_source := { name := "orders", type := "hive", table := "order_info",
                         database := some "default" }
        conditions := [{ field := "city", operator := "in",
                         value := .VList [.VStr "北京", .VStr "上海"] },
                       { field := "amount", operator := ">", value := .VInt 100 }]
        aggregations := some { group_by := ["city"],
                               aggregations := [("cnt", "COUNT(*)")] }
        time_range := some { relative_days := some 7 }
        output_config := { limit := some 10, sort_by := some "cnt" } } "hive") '(' =
    countChar (generate_sql (fun _ => ⟨2026, 10, 12⟩)
      { original_query := "统计订单"
        intent_result := { intent := .STATISTICS, confidence := 1, parameters := {},
                           raw_query := "统计订单" }
        data_source := { name := "orders", type := "hive", table := "order_info",
                         database := some "default" }
        conditions := [{ field := "city", operator := "in",
                         value := .VList [.VStr "北京", .VStr "上海"] },
                       { field := "amount", operator := ">", value := .VInt 100 }]
        aggregations := some { group_by := ["city"],
                               aggregations := [("cnt", "COUNT(*)")] }
        time_range := some { relative_days := some 7 }
        output_config := { limit := some 10, sort_by := some "cnt" } } "hive") ')' ∧
    (validate_sql (generate_sql (fun _ => ⟨2026, 10, 12⟩)
      { original_query := "统计订单"
        intent_result := { intent := .STATISTICS, confidence := 1, parameters := {},
                           raw_query := "统计订单" }
        data_source := { name := "orders", type := "hive", table := "order_info",
                         database := some "default" }
        conditions := [{ field := "city", operator := "in",
                         value := .VList [.VStr "北京", .VStr "上海"] },
                       { field := "amount", operator := ">", value := .VInt 100 }]
        aggregations := some { group_by := ["city"],
                               aggregations := [("cnt", "COUNT(*)")] }
        time_range := some { relative_days := some 7 }
        output_config := { limit := some 10, sort_by := some "cnt" } } "hive") "hive").valid = true ∧
    (validate_sql (generate_sql (fun _ => ⟨2026, 10, 12⟩)
      { original_query := "统计订单"
        intent_result := { intent := .STATISTICS, confidence := 1, parameters := {},
                           raw_query := "统计订单" }
        data_source := { name := "orders", type := "hive", table := "order_info",
                         database := some "default" }
        conditions := [{ field := "city", operator := "in",
                         value := .VList [.VStr "北京", .VStr "上海"] },
                       { field := "amount", operator := ">", value := .VInt 100 }]
        aggregations := some { group_by := ["city"],
                               aggregations := [("cnt", "COUNT(*)")] }
        time_range := some { relative_days := some 7 }
        output_config := { limit := some 10, sort_by := some "cnt" } } "hive") "hive").errors = [] :=
  generate_sql_wellformed_of_balanced_ir (fun _ => ⟨2026, 10, 12⟩) _ "hive" (by decide)

/-- C1 counterexample: a single equality condition whose value is the
string `"("` yields a statement with one unmatched opening parenthesis, so
`validate_sql` reports an error — the claim fails for arbitrary condition
values. -/
theorem generate_sql_unbalanced_counterexample :
    (validate_sql (generate_sql (fun _ => ⟨2026, 10, 12⟩)
      { original_query := "q"
        intent_result := { intent := .STATISTICS, confidence := 0, parameters := {},
                           raw_query := "q" }
        data_source := { name := "d", type := "hive", table := "t" }
        conditions := [{ field := "f", operator := "=", value := .VStr "(" }] }
      "hive") "hive").valid = false ∧
    ¬(countChar (generate_sql (fun _ => ⟨2026, 10, 12⟩)
      { original_query := "q"
        intent_result := { intent := .STATISTICS, confidence := 0, parameters := {},
                           raw_query := "q" }
        data_source := { name := "d", type := "hive", table := "t" }
        conditions := [{ field := "f", operator := "=", value := .VStr "(" }] }
      "hive") '(' =
      countChar (generate_sql (fun _ => ⟨2026, 10, 12⟩)
      { original_query := "q"
        intent_result := { intent := .STATISTICS, confidence := 0, parameters := {},
                           raw_query := "q" }
        data_source := { name := "d", type := "hive", table := "t" }
        conditions := [{ field := "f", operator := "=", value := .VStr "(" }] }
      "hive") ')') := by
  constructor <;> decide

/-- The validity flag is exactly the conjunction of the three structural
checks (the quote-parity check only warns). -/
theorem validate_sql_valid_eq (sql dialect : String) :
    (validate_sql sql dialect).valid =
      (pyStartsWith (pyStrip (pyUpper sql)) "SELECT" &&
       strIn "FROM" (pyUpper sql) &&
       (countChar sql '(' == countChar sql ')')) := by
  unfold validate_sql
  dsimp only
  cases pyStartsWith (pyStrip (pyUpper sql)) "SELECT" <;>
    cases strIn "FROM" (pyUpper sql) <;>
    cases hb : (countChar sql '(' == countChar sql ')') <;>
    simp [bne, hb]

/-- C4: `build_task` returns an error exactly when the generated main
statement fails the structural validation — it does not start with SELECT,
lacks FROM, or has unbalanced parentheses; quote parity plays no part in
the abort criterion. -/
theorem build_task_raises_iff_validation (calMinus : Int → PyDate)
    (task_id created_at : String) (aq : AnalyzedQuery) (engine_type : String)
    (priority timeout_seconds : Int) :
    (∃ e, build_task calMinus task_id created_at aq engine_type priority
        timeout_seconds = .error e) ↔
      ¬(pyStartsWith (pyStrip (pyUpper (generate_sql calMinus aq engine_type)))
          "SELECT" = true ∧
        strIn "FROM" (pyUpper (generate_sql calMinus aq engine_type)) = true ∧
        countChar (generate_sql calMinus aq engine_type) '(' =
          countChar (generate_sql calMinus aq engine_type) ')') := by
  have hval := validate_sql_valid_eq (generate_sql calMinus aq engine_type) engine_type
  unfold build_task
  dsimp only
  split_ifs with hv
  · have hvf : (validate_sql (generate_sql calMinus aq engine_type) engine_type).valid
        = false := by
      revert hv
      cases (validate_sql (generate_sql calMinus aq engine_type) engine_type).valid <;> simp
    rw [hval] at hvf
    constructor
    · rintro - ⟨t1, t2, t3⟩
      rw [t1, t2, beq_iff_eq.mpr t3] at hvf
      simp at hvf
    · intro _
      exact ⟨_, rfl⟩
  · have hvt : (validate_sql (generate_sql calMinus aq engine_type) engine_type).valid
        = true := by
      revert hv
      cases (validate_sql (generate_sql calMinus aq engine_type) engine_type).valid <;> simp
    rw [hval] at hvt
    rw [Bool.and_eq_true, Bool.and_eq_true] at hvt
    constructor
    · rintro ⟨e, he⟩
      cases he
    · intro hneg
      exact absurd ⟨hvt.1.1, hvt.1.2, beq_iff_eq.mp hvt.2⟩ hneg

/-- Unfolding: end of input. -/
theorem csvParseAux_nil (inQ : Bool) (field : List Char) (row : List String)
    (rows : List (List String)) :
    csvParseAux inQ field row rows [] =
      if inQ then rows ++ [row ++ [String.mk field]]
      else if field.isEmpty && row.isEmpty then rows
      else rows ++ [row ++ [String.mk field]] := by
  rw [csvParseAux.eq_def]

/-- Unfolding: a plain character outside quotes. -/
theorem csvParseAux_plain (c : Char) (field : List Char) (row : List String)
    (rows : List (List String)) (rest : List Char)
    (h1 : c ≠ ',') (h2 : c ≠ '\r') (h3 : c ≠ '"') :
    csvParseAux false field row rows (c :: rest) =
      csvParseAux false (field ++ [c]) row rows rest := by
  rw [csvParseAux.eq_def]
  simp [h1, h2, h3]

/-- Unfolding: a delimiter outside quotes closes the field. -/
theorem csvParseAux_comma (field : List Char) (row : List String)
    (rows : List (List String)) (rest : List Char) :
    csvParseAux false field row rows (',' :: rest) =
      csvParseAux false [] (row ++ [String.mk field]) rows rest := by
  rw [csvParseAux.eq_def]
  simp

/-- Unfolding: the line terminator outside quotes closes the record. -/
theorem csvParseAux_crlf (field : List Char) (row : List String)
    (rows : List (List String)) (rest : List Char) :
    csvParseAux false field row rows ('\r' :: '\n' :: rest) =
      csvParseAux false [] [] (rows ++ [row ++ [String.mk field]]) rest := by
  rw [csvParseAux.eq_def]
  simp

/-- Unfolding: a quote at the start of a field opens quoted mode. -/
theorem csvParseAux_openq (row : List String)
    (rows : List (List String)) (rest : List Char) :
    csvParseAux false [] row rows ('"' :: rest) =
      csvParseAux true [] row rows rest := by
  rw [csvParseAux.eq_def]
  simp

/-- Unfolding: a non-quote character inside quotes. -/
theorem csvParseAux_q_plain (c : Char) (field : List Char) (row : List String)
    (rows : List (List String)) (rest : List Char) (h : c ≠ '"') :
    csvParseAux true field row rows (c :: rest) =
      csvParseAux true (field ++ [c]) row rows rest := by
  rw [csvParseAux.eq_def]
  simp [h]

/-- Unfolding: a doubled quote inside quotes is a literal quote. -/
theorem csvParseAux_q_qq (field : List Char) (row : List String)
    (rows : List (List String)) (rest : List Char) :
    csvParseAux true field row rows ('"' :: '"' :: rest) =
      csvParseAux true (field ++ ['"']) row rows rest := by
  rw [csvParseAux.eq_def]
  simp

/-- Unfolding: a closing quote at the very end of the input. -/
theorem csvParseAux_q_close_nil (field : List Char) (row : List String)
    (rows : List (List String)) :
    csvParseAux true field row rows ['"'] =
      csvParseAux false field row rows [] := by
  rw [csvParseAux.eq_def]
  simp

/-- Unfolding: a closing quote followed by a non-quote character. -/
theorem csvParseAux_q_close (c2 : Char) (field : List Char) (row : List String)
    (rows : List (List String)) (rest2 : List Char) (h : c2 ≠ '"') :
    csvParseAux true field row rows ('"' :: c2 :: rest2) =
      csvParseAux false field row rows (c2 :: rest2) := by
  rw [csvParseAux.eq_def]
  simp [h]

/-- Scanning plain characters outside quotes just appends them to the field. -/
theorem csvParseAux_scan_plain (v : List Char) (field : List Char) (row : List String)
    (rows : List (List String)) (rest : List Char)
    (hv : ∀ c ∈ v, ¬(c = ',' ∨ c = '\r' ∨ c = '"')) :
    csvParseAux false field row rows (v ++ rest) =
      csvParseAux false (field ++ v) row rows rest := by
  induction v generalizing field with
  | nil => simp
  | cons c v' ih =>
    have hc := hv c (List.mem_cons_self _ _)
    push_neg at hc
    obtain ⟨h1, h2, h3⟩ := hc
    rw [List.cons_append, csvParseAux_plain c field row rows _ h1 h2 h3,
      ih _ (fun c hc => hv c (List.mem_cons_of_mem _ hc))]
    simp

/-- Scanning a doubled-quote body inside quotes up to the closing quote. -/
theorem csvParseAux_scan_quoted (v : List Char) (field : List Char) (row : List String)
    (rows : List (List String)) (rest : List Char)
    (hrest : rest.head? ≠ some '"') :
    csvParseAux true field row rows (dupQuotes v ++ ('"' :: rest)) =
      csvParseAux false (field ++ v) row rows rest := by
  induction v generalizing field with
  | nil =>
    rw [dupQuotes, List.nil_append]
    cases rest with
    | nil => rw [csvParseAux_q_close_nil]; simp
    | cons c2 rest2 =>
      have hc2 : c2 ≠ '"' := by
        intro h
        exact hrest (by rw [h]; rfl)
      rw [csvParseAux_q_close c2 field row rows rest2 hc2]
      simp
  | cons c v' ih =>
    by_cases hc : c = '"'
    · subst hc
      rw [dupQuotes, if_pos rfl, List.cons_append, List.cons_append,
        csvParseAux_q_qq, ih]
      simp
    · rw [dupQuotes, if_neg hc, List.cons_append,
        csvParseAux_q_plain c field row rows _ hc, ih]
      simp

/-- One encoded field scans back to its own characters. -/
theorem csvParseAux_field (v : String) (row : List String) (rows : List (List String))
    (rest : List Char) (hrest : rest.head? ≠ some '"') :
    csvParseAux false [] row rows ((encodeField v).data ++ rest) =
      csvParseAux false v.data row rows rest := by
  rw [encodeField]
  by_cases hq : needsQuote v
  · rw [if_pos hq]
    have hdata : ("\"" ++ String.mk (dupQuotes v.data) ++ "\"").data
        = '"' :: (dupQuotes v.data ++ ['"']) := rfl
    rw [hdata, List.cons_append, List.append_assoc, List.singleton_append,
      csvParseAux_openq, csvParseAux_scan_quoted v.data [] row rows rest hrest,
      List.nil_append]
  · rw [if_neg hq]
    have hv : ∀ c ∈ v.data, ¬(c = ',' ∨ c = '\r' ∨ c = '"') := by
      intro c hc
      rw [needsQuote] at hq
      simp only [List.any_eq_true, not_exists, not_and] at hq
      have := hq c hc
      simp only [Bool.or_eq_true, beq_iff_eq, not_or] at this
      tauto
    rw [csvParseAux_scan_plain v.data [] row rows rest hv, List.nil_append]

/-- Scanning one encoded record closes the current row with its values. -/
theorem csvParseAux_fields (vs : List String) (row : List String)
    (rows : List (List String)) (rest : List Char) (hvs : vs ≠ []) :
    csvParseAux false [] row rows
        ((pyJoin "," (vs.map encodeField)).data ++ ('\r' :: '\n' :: rest)) =
      csvParseAux false [] [] (rows ++ [row ++ vs]) rest := by
  induction vs generalizing row with
  | nil => exact absurd rfl hvs
  | cons v vs' ih =>
    cases vs' with
    | nil =>
      rw [List.map_cons, List.map_nil, pyJoin,
        csvParseAux_field v row rows _ (by simp), csvParseAux_crlf]
    | cons v2 vs'' =>
      have hjoin : pyJoin "," ((v :: v2 :: vs'').map encodeField)
          = encodeField v ++ ("," ++ pyJoin "," ((v2 :: vs'').map encodeField)) := by
        rw [List.map_cons, pyJoin, strAppend_assoc]
        simp
      rw [hjoin, strData_append]
      have hcomma : ("," ++ pyJoin "," ((v2 :: vs'').map encodeField)).data
          = ',' :: (pyJoin "," ((v2 :: vs'').map encodeField)).data := rfl
      rw [hcomma, List.append_assoc, List.cons_append,
        csvParseAux_field v row rows _ (by simp), csvParseAux_comma]
      have hmk : String.mk v.data = v := rfl
      rw [hmk, ih (row ++ [v]) (by simp)]
      simp

theorem strFoldlAppend (l : List String) (a b : String) :
    List.foldl (· ++ ·) (a ++ b) l = a ++ List.foldl (· ++ ·) b l := by
  induction l generalizing b with
  | nil => rfl
  | cons x xs ih =>
    rw [List.foldl_cons, List.foldl_cons, strAppend_assoc, ih]

theorem string_join_cons (x : String) (l : List String) :
    String.join (x :: l) = x ++ String.join l := by
  have h1 : ("" ++ x : String) = x ++ "" := by
    apply congrArg String.mk
    simp
  show List.foldl (· ++ ·) ("" ++ x) l = x ++ String.join l
  rw [h1, strFoldlAppend]
  rfl

/-- Scanning a sequence of encoded records appends the records. -/
theorem csvParseAux_records (rs : List (List String)) (rows : List (List String))
    (rest : List Char) (hrs : ∀ r ∈ rs, r ≠ []) :
    csvParseAux false [] [] rows ((String.join (rs.map encodeRow)).data ++ rest) =
      csvParseAux false [] [] (rows ++ rs) rest := by
  induction rs generalizing rows with
  | nil => simp [String.join]
  | cons r rs' ih =>
    rw [List.map_cons, string_join_cons, strData_append, encodeRow, strData_append]
    have hterm : ("\r\n" : String).data = ['\r', '\n'] := rfl
    rw [hterm]
    simp only [List.append_assoc]
    have h2 : (['\r', '\n'] : List Char) ++ ((String.join (rs'.map encodeRow)).data ++ rest)
        = '\r' :: '\n' :: ((String.join (rs'.map encodeRow)).data ++ rest) := rfl
    rw [h2, csvParseAux_fields r [] rows _ (hrs r (List.mem_cons_self _ _)),
      ih (rows ++ [[] ++ r]) (fun r' hr' => hrs r' (List.mem_cons_of_mem _ hr'))]
    simp

/-- Looking every key of an association list with distinct keys back up
returns its values in order. -/
theorem alistGet_keys_map (r : List (String × String))
    (hnd : (r.map Prod.fst).Nodup) :
    (r.map Prod.fst).map (fun c => (alistGet r c).getD "") = r.map Prod.snd := by
  induction r with
  | nil => rfl
  | cons p r' ih =>
    obtain ⟨k, v⟩ := p
    rw [List.map_cons, List.nodup_cons] at hnd
    obtain ⟨hk, hnd'⟩ := hnd
    rw [List.map_cons, List.map_cons, List.map_cons]
    congr 1
    · simp [alistGet, List.find?_cons]
    · have hcong : ∀ c ∈ r'.map Prod.fst,
          (alistGet ((k, v) :: r') c).getD "" = (alistGet r' c).getD "" := by
        intro c hc
        have hck : ¬((k, v).1 == c) := by
          simp only [beq_iff_eq]
          rintro rfl
          exact hk hc
        simp [alistGet, List.find?_cons, hck]
      rw [List.map_congr_left hcong, ih hnd']

theorem zip_fst_snd (r : List (String × String)) :
    (r.map Prod.fst).zip (r.map Prod.snd) = r := by
  induction r with
  | nil => rfl
  | cons p r' ih =>
    obtain ⟨k, v⟩ := p
    simp [ih]

/-- C8: `CSVFormatter.format` returns the empty string on an empty row
list; for a non-empty row list whose rows all carry exactly the effective
header keys (taken from `columns` if given, else from the first row), with
that header non-empty and duplicate-free, formatting to csv text and
parsing it back yields the header record followed by each row's values in
column order, and re-associating the header with those values recovers the
rows. -/
theorem csv_format_empty_and_roundtrip :
    (∀ columns, CSVFormatter.format [] columns = "") ∧
    ∀ (data : List (List (String × String))) (columns : List String),
      data ≠ [] →
      effectiveColumns data columns ≠ [] →
      (effectiveColumns data columns).Nodup →
      (∀ r ∈ data, r.map Prod.fst = effectiveColumns data columns) →
      csvParse (CSVFormatter.format data columns) =
        effectiveColumns data columns :: data.map (fun r => r.map Prod.snd) ∧
      data.map (fun r => (effectiveColumns data columns).zip (r.map Prod.snd)) = data := by
  constructor
  · intro columns
    rfl
  intro data columns hne hcne hnd hkeys
  have hrne : ∀ r' ∈ data.map (fun r => r.map Prod.snd), r' ≠ [] := by
    intro r' hr'
    obtain ⟨r0, hr0, rfl⟩ := List.mem_map.mp hr'
    intro hnil
    rw [List.map_eq_nil_iff] at hnil
    subst hnil
    exact hcne (hkeys [] hr0).symm
  constructor
  · have hempty : data.isEmpty = false := by
      cases data with
      | nil => exact absurd rfl hne
      | cons d ds => rfl
    rw [CSVFormatter.format, hempty]
    simp only [Bool.false_eq_true, if_false]
    have hcols : (if columns.isEmpty then (data.headD []).map Prod.fst else columns)
        = effectiveColumns data columns := rfl
    rw [hcols]
    have hrows : data.map (fun r => encodeRow
          ((effectiveColumns data columns).map (fun c => (alistGet r c).getD "")))
        = (data.map (fun r => r.map Prod.snd)).map encodeRow := by
      rw [List.map_map]
      apply List.map_congr_left
      intro r hr
      have hk := hkeys r hr
      have hnd2 : (r.map Prod.fst).Nodup := by rw [hk]; exact hnd
      rw [Function.comp_apply, ← hk, alistGet_keys_map r hnd2]
    rw [hrows, csvParse, strData_append, encodeRow, strData_append]
    have hterm : ("\r\n" : String).data = ['\r', '\n'] := rfl
    rw [hterm, List.append_assoc]
    have h2 : (['\r', '\n'] : List Char)
          ++ (String.join ((data.map (fun r => r.map Prod.snd)).map encodeRow)).data
        = '\r' :: '\n'
          :: (String.join ((data.map (fun r => r.map Prod.snd)).map encodeRow)).data := rfl
    rw [h2, csvParseAux_fields (effectiveColumns data columns) [] [] _ hcne]
    have h3 : (String.join ((data.map (fun r => r.map Prod.snd)).map encodeRow)).data
        = (String.join ((data.map (fun r => r.map Prod.snd)).map encodeRow)).data ++ [] :=
      (List.append_nil _).symm
    rw [h3, csvParseAux_records (data.map (fun r => r.map Prod.snd)) _ [] hrne,
      csvParseAux_nil]
    simp
  · conv_rhs => rw [← List.map_id data]
    apply List.map_congr_left
    intro r hr
    rw [← hkeys r hr, zip_fst_snd]
    rfl

theorem csv_format_empty_and_roundtrip_witness :
    csvSampleData ≠ [] ∧
    effectiveColumns csvSampleData [] ≠ [] ∧
    (effectiveColumns csvSampleData []).Nodup ∧
    (∀ r ∈ csvSampleData, r.map Prod.fst = effectiveColumns csvSampleData []) ∧
    (csvParse (CSVFormatter.format csvSampleData []) =
        effectiveColumns csvSampleData [] :: csvSampleData.map (fun r => r.map Prod.snd) ∧
      csvSampleData.map
          (fun r => (effectiveColumns csvSampleData []).zip (r.map Prod.snd)) = csvSampleData) :=
  ⟨by decide, by decide, by decide, by decide,
    csv_format_empty_and_roundtrip.2 csvSampleData [] (by decide) (by decide) (by decide)
      (by decide)⟩
